import Mathlib

/-!
# szLog: a shallow embedding of `szLog.go`

The Go package layers four logging levels on top of the standard `log`
package.  A `Logger` holds a threshold, three cached booleans and an ordered
list of `*log.Logger` sinks.  The embedding below follows `szLog.go` function
by function.

Modelling conventions.

* `Level` is Go's `uint32`; no arithmetic is performed on it, so it is a `Nat`.
* A `*log.Logger` is represented by its identity (`LogRef`); the writer an
  object currently wraps is looked up in the environment (`Env.writerOf`),
  the way `l.Writer()` reads it from the object.  Sink references are taken
  to be non-nil.
* An `io.Writer` is an interface value: a dynamic type and a dynamic value.
  Comparing two of them with `==` panics at run time when both have the
  same dynamic type and that type is not comparable (a func, a slice, a
  struct holding one); a call that panics is an `Outcome.panics`, and the
  Logger keeps the state it had when the panic was raised.
* `l.Print(r)` is recorded as the pair `(l, r)` appended to `Env.printed`:
  that is the string the package hands to the sink (the sink's own prefix,
  flags and trailing line break belong to package `log`).
* `closable.Close()` is recorded in `Env.closeCalls`.
* Go strings are Lean strings; `strings.Split` and `fmt.Sprint` from the Go
  standard library are given by their documented behaviour; `fmt.Sprintf`
  is a parameter of every definition that calls it.
-/

namespace SzLog

/-! ## Data model -/

/-- Go: `type Level uint32`. -/
abbrev Level := Nat

/-- Go: `ErrorLevel Level = iota`. -/
def ErrorLevel : Level := 0
/-- Go: `WarnLevel` (iota = 1). -/
def WarnLevel : Level := 1
/-- Go: `InfoLevel` (iota = 2). -/
def InfoLevel : Level := 2
/-- Go: `DebugLevel` (iota = 3). -/
def DebugLevel : Level := 3

def debugLabel : String := "D: "
def infoLabel : String := "I: "
def warnLabel : String := "W: "
def errorLabel : String := "E: "
def continueLabel : String := "+  "

/-- Identity of a `*log.Logger` object. -/
abbrev LogRef := Nat
/-- The dynamic type of an interface value: the identity of the type, and
whether Go can compare values of the type with `==` (pointers such as
`*os.File` can; funcs, slices, maps and structs holding them cannot). -/
inductive DynType where
  | comparable (id : Nat)
  | uncomparable (id : Nat)
deriving DecidableEq, Repr

/-- An `io.Writer` interface value: its dynamic type and its dynamic value. -/
structure Writer where
  dynType : DynType
  value : Nat
deriving DecidableEq, Repr

/-- How a call ends: it returns a value, or it panics at run time. -/
inductive Outcome (α : Type) where
  | returns (a : α)
  | panics
deriving DecidableEq, Repr

/-- Go: `type Logger struct`. -/
structure Logger where
  level : Level
  logs : List LogRef
  IsDebug : Bool
  IsInfo : Bool
  IsWarn : Bool
deriving DecidableEq, Repr

/-- The zero value `new(Logger)` points to. -/
def Logger.zero : Logger :=
  { level := 0, logs := [], IsDebug := false, IsInfo := false, IsWarn := false }

/-- The part of the Go runtime the package acts on: the writer of every
`log.Logger` object, the `Print` calls made so far (oldest first) and the
`Close` calls made so far on `io.Closer` objects (oldest first). -/
structure Env where
  writerOf : LogRef → Writer
  printed : List (LogRef × String)
  closeCalls : List Nat

/-- An operand of interface type `any` as `fmt.Sprint` sees it. -/
inductive Arg where
  /-- a value whose kind is `string` -/
  | str (s : String)
  /-- an integer value -/
  | int (n : Int)
  /-- a non-nil `error` value of non-string kind; `e` is what `Error()` returns -/
  | err (e : String)
  /-- any other operand of non-string kind, given by its `%v` rendering -/
  | val (v : String)
deriving DecidableEq, Repr

/-- Go: `reflect.TypeOf(arg).Kind() == reflect.String`. -/
def Arg.isString : Arg → Bool
  | .str _ => true
  | _ => false

/-- The textual form `printArg(arg, 'v')` writes. -/
def Arg.text : Arg → String
  | .str s => s
  | .int n => toString n
  | .err e => e
  | .val v => v

/-- An `io.Closer` object: its identity and the result of its `Close` method,
as a function of the number of times `Close` was called on it before
(`none` is a nil error, `some e` an error whose `Error()` is `e`). -/
structure Closer where
  ref : Nat
  result : Nat → Option String

/-! ## Standard library -/

/-- Go: `strings.Split(s, "\n")` on the characters of `s`: the substrings
between the line breaks, one more than there are line breaks. -/
def splitNL : List Char → List (List Char)
  | [] => [[]]
  | c :: cs =>
    if c = '\n' then [] :: splitNL cs
    else
      match splitNL cs with
      | [] => [[c]]
      | l :: ls => (c :: l) :: ls

/-- Go: `strings.Split(s, "\n")`. -/
def strings_Split (s : String) : List String :=
  (splitNL s.data).map String.mk

/-- Go: the loop of `fmt.(*pp).doPrint`, which `fmt.Sprint` runs over its
operands: "a space is added between operands when neither is a string".
`prevString` is whether the previous operand was a string and `first`
whether the operand is the first one (`argNum == 0`). -/
def doPrint : Bool → Bool → List Arg → String
  | _, _, [] => ""
  | first, prevString, arg :: rest =>
    (if !first && !arg.isString && !prevString then " " else "")
      ++ arg.text ++ doPrint false arg.isString rest

/-- Go: `fmt.Sprint(a...)`. -/
def fmt_Sprint (a : List Arg) : String :=
  doPrint true false a

/-- Go: `a == b` on two interface values: false when the dynamic types differ,
a run-time panic when they are the same uncomparable type, and otherwise
the comparison of the dynamic values. -/
def iface_eq (a b : Writer) : Outcome Bool :=
  if a.dynType = b.dynType then
    match a.dynType with
    | .comparable _ => .returns (decide (a.value = b.value))
    | .uncomparable _ => .panics
  else .returns false

/-- Go: `l.Print(r)` on the `*log.Logger` `l`. -/
def log_Print (l : LogRef) (r : String) (env : Env) : Env :=
  { env with printed := env.printed ++ [(l, r)] }

/-- Go: `log.New(out, pfx, flags)`: the allocator returns the object `fresh`,
which from then on wraps the writer `out`. -/
def log_New (fresh : LogRef) (out : Writer) (env : Env) : Env :=
  { env with writerOf := fun l => if l = fresh then out else env.writerOf l }

/-- Go: `closable.Close()`: the call is recorded and its result is the one
the closer gives after the calls already made on it. -/
def io_Close (closable : Closer) (env : Env) : Option String × Env :=
  (closable.result (env.closeCalls.count closable.ref),
   { env with closeCalls := env.closeCalls ++ [closable.ref] })

/-! ## Methods of `Logger` -/

/-- The string `r` built by the first loop of `output`:
`r := label; for i, l := range strings.Split(msg, "\n")` with
`if i > 0 then r += "\n" + continueLabel` and `r += l`. -/
def outputText (label msg : String) : String :=
  (strings_Split msg).enum.foldl
    (fun r il => (if il.1 > 0 then r ++ ("\n" ++ continueLabel) else r) ++ il.2)
    label

/-- Go: `func (logger *Logger) output(label, msg string)`. -/
def Logger.output (logger : Logger) (label msg : String) (env : Env) : Env :=
  let r := outputText label msg
  logger.logs.foldl (fun env l => log_Print l r env) env

/-- Go: `func (logger *Logger) SetLevel(newLevel Level) Level`. -/
def Logger.SetLevel (logger : Logger) (newLevel : Level) : Logger × Level :=
  let lastLevel := logger.level
  let logger := { logger with level := newLevel }
  let logger := { logger with IsWarn := decide (logger.level ≥ WarnLevel) }
  let logger := { logger with IsInfo := decide (logger.level ≥ InfoLevel) }
  let logger := { logger with IsDebug := decide (logger.level ≥ DebugLevel) }
  (logger, lastLevel)

/-- The `for _, l := range logger.logs` loop of `AddLogger`: the error of the
first sink that makes it return, `none` when it runs to the end; the loop
panics when the comparison `l.Writer() == newLogger.Writer()` does. -/
def AddLogger.scan (writerOf : LogRef → Writer) (newLogger : LogRef) :
    List LogRef → Outcome (Option String)
  | [] => .returns none
  | l :: rest =>
    if l = newLogger then .returns (some "duplicate logger added")
    else
      match iface_eq (writerOf l) (writerOf newLogger) with
      | .panics => .panics
      | .returns true => .returns (some "duplicate os.Writer added")
      | .returns false => AddLogger.scan writerOf newLogger rest

/-- Go: `func (logger *Logger) AddLogger(newLogger *log.Logger) error`.  The
first component is the Logger after the call, the second how the call
ended: it returned nil, it returned an error, or it panicked. -/
def Logger.AddLogger (logger : Logger) (newLogger : LogRef) (env : Env) :
    Logger × Outcome (Option String) :=
  match AddLogger.scan env.writerOf newLogger logger.logs with
  | .returns none => ({ logger with logs := logger.logs ++ [newLogger] }, .returns none)
  | .returns (some e) => (logger, .returns (some e))
  | .panics => (logger, .panics)

/-- Go: `func (logger *Logger) AddWriter(newWriter io.Writer, prefix string,
flags int) error`; `fresh` is the object `log.New` allocates. -/
def Logger.AddWriter (logger : Logger) (fresh : LogRef) (newWriter : Writer)
    (_pfx : String) (_flags : Int) (env : Env) :
    (Logger × Outcome (Option String)) × Env :=
  let env := log_New fresh newWriter env
  (logger.AddLogger fresh env, env)

/-- Go: `func New(level Level, logLogger *log.Logger) *Logger`.  The call of
`AddLogger` runs on an empty sink list, makes no comparison and returns
nil. -/
def New (level : Level) (logLogger : LogRef) (env : Env) : Logger :=
  let logger := Logger.zero
  let logger := (logger.SetLevel level).1
  let logger := (logger.AddLogger logLogger env).1
  logger

/-- Go: `func (logger *Logger) Debug(msg ...any)`. -/
def Logger.Debug (logger : Logger) (msg : List Arg) (env : Env) : Env :=
  if logger.IsDebug then logger.output debugLabel (fmt_Sprint msg) env else env

/-- Go: `func (logger *Logger) Debugf(msgFmt string, msgArgs ...any)`. -/
def Logger.Debugf (Sprintf : String → List Arg → String) (logger : Logger)
    (msgFmt : String) (msgArgs : List Arg) (env : Env) : Env :=
  if logger.IsDebug then logger.output debugLabel (Sprintf msgFmt msgArgs) env else env

/-- Go: `func (logger *Logger) Info(msg ...any)`. -/
def Logger.Info (logger : Logger) (msg : List Arg) (env : Env) : Env :=
  if logger.IsInfo then logger.output infoLabel (fmt_Sprint msg) env else env

/-- Go: `func (logger *Logger) Infof(msgFmt string, msgArgs ...any)`. -/
def Logger.Infof (Sprintf : String → List Arg → String) (logger : Logger)
    (msgFmt : String) (msgArgs : List Arg) (env : Env) : Env :=
  if logger.IsInfo then logger.output infoLabel (Sprintf msgFmt msgArgs) env else env

/-- Go: `func (logger *Logger) Warn(msg ...any)`. -/
def Logger.Warn (logger : Logger) (msg : List Arg) (env : Env) : Env :=
  if logger.IsWarn then logger.output warnLabel (fmt_Sprint msg) env else env

/-- Go: `func (logger *Logger) Warnf(msgFmt string, msgArgs ...any)`. -/
def Logger.Warnf (Sprintf : String → List Arg → String) (logger : Logger)
    (msgFmt : String) (msgArgs : List Arg) (env : Env) : Env :=
  if logger.IsWarn then logger.output warnLabel (Sprintf msgFmt msgArgs) env else env

/-- Go: `func (logger *Logger) Error(msg ...any)`. -/
def Logger.Error (logger : Logger) (msg : List Arg) (env : Env) : Env :=
  logger.output errorLabel (fmt_Sprint msg) env

/-- Go: `func (logger *Logger) Errorf(msgFmt string, msgArgs ...any)`. -/
def Logger.Errorf (Sprintf : String → List Arg → String) (logger : Logger)
    (msgFmt : String) (msgArgs : List Arg) (env : Env) : Env :=
  logger.output errorLabel (Sprintf msgFmt msgArgs) env

/-- Go: `func (logger *Logger) Close(closable io.Closer, args ...any)`. -/
def Logger.Close (logger : Logger) (closable : Closer) (args : List Arg)
    (env : Env) : Env :=
  let (err, env) := io_Close closable env
  match err with
  | some e =>
    let msg := ""
    let msg := if args.length > 0 then msg ++ (" " ++ fmt_Sprint args) else msg
    logger.Error [.str "Close", .str msg, .str " caused: ", .err e] env
  | none => env

/-- Go: `func (logger *Logger) Closef(closable io.Closer, fmtMsg string,
fmtArgs ...any)`. -/
def Logger.Closef (Sprintf : String → List Arg → String) (logger : Logger)
    (closable : Closer) (fmtMsg : String) (fmtArgs : List Arg) (env : Env) : Env :=
  let (err, env) := io_Close closable env
  match err with
  | some e =>
    let msg := Sprintf fmtMsg fmtArgs
    let msg := if msg.utf8ByteSize > 0 then " " ++ msg else msg
    logger.Error [.str "Close", .str msg, .str " caused: ", .err e] env
  | none => env

/-! ## Calls and their results -/

/-- A call of one of the exported operations, with its arguments.  For
`AddWriter`, `fresh` is the object `log.New` allocates during the call. -/
inductive Call where
  | SetLevel (newLevel : Level)
  | AddWriter (fresh : LogRef) (newWriter : Writer) (pfx : String) (flags : Int)
  | AddLogger (newLogger : LogRef)
  | Debug (msg : List Arg)
  | Debugf (msgFmt : String) (msgArgs : List Arg)
  | Info (msg : List Arg)
  | Infof (msgFmt : String) (msgArgs : List Arg)
  | Warn (msg : List Arg)
  | Warnf (msgFmt : String) (msgArgs : List Arg)
  | Error (msg : List Arg)
  | Errorf (msgFmt : String) (msgArgs : List Arg)
  | Close (closable : Closer) (args : List Arg)
  | Closef (closable : Closer) (fmtMsg : String) (fmtArgs : List Arg)

/-- What a call returns: a `Level`, an `error` (`none` is nil) or nothing; or
the call panics. -/
inductive Ret where
  | level (l : Level)
  | error (e : Option String)
  | unit
  | panic
deriving DecidableEq, Repr

/-- The result of a call that returns an `error` or panics. -/
def Ret.ofOutcome : Outcome (Option String) → Ret
  | .returns e => .error e
  | .panics => .panic

/-- A `Logger` object together with the environment it runs in. -/
structure State where
  logger : Logger
  env : Env

/-- The method of `*Logger` a call names, run on the logger of the state. -/
def Logger.call (Sprintf : String → List Arg → String) (c : Call) (s : State) :
    State × Ret :=
  match c with
  | .SetLevel n =>
    let (logger, last) := s.logger.SetLevel n
    ({ s with logger := logger }, .level last)
  | .AddWriter fresh w pfx flags =>
    let ((logger, e), env) := s.logger.AddWriter fresh w pfx flags s.env
    ({ logger := logger, env := env }, Ret.ofOutcome e)
  | .AddLogger l =>
    let (logger, e) := s.logger.AddLogger l s.env
    ({ s with logger := logger }, Ret.ofOutcome e)
  | .Debug msg => ({ s with env := s.logger.Debug msg s.env }, .unit)
  | .Debugf f a => ({ s with env := s.logger.Debugf Sprintf f a s.env }, .unit)
  | .Info msg => ({ s with env := s.logger.Info msg s.env }, .unit)
  | .Infof f a => ({ s with env := s.logger.Infof Sprintf f a s.env }, .unit)
  | .Warn msg => ({ s with env := s.logger.Warn msg s.env }, .unit)
  | .Warnf f a => ({ s with env := s.logger.Warnf Sprintf f a s.env }, .unit)
  | .Error msg => ({ s with env := s.logger.Error msg s.env }, .unit)
  | .Errorf f a => ({ s with env := s.logger.Errorf Sprintf f a s.env }, .unit)
  | .Close c args => ({ s with env := s.logger.Close c args s.env }, .unit)
  | .Closef c f a => ({ s with env := s.logger.Closef Sprintf c f a s.env }, .unit)

/-- The allocator hands out an object that is not in use: the object
`log.New` returns during `AddWriter` is none of the attached sinks. -/
def Call.admissible (c : Call) (logs : List LogRef) : Prop :=
  match c with
  | .AddWriter fresh _ _ _ => fresh ∉ logs
  | _ => True

/-- The states of a `Logger` object: the one `New` returns, and every state a
call of a method leads to. -/
inductive Reachable (Sprintf : String → List Arg → String) : State → Prop where
  | init (level : Level) (logLogger : LogRef) (env : Env) :
      Reachable Sprintf { logger := New level logLogger env, env := env }
  | step (c : Call) (s : State) :
      Reachable Sprintf s → c.admissible s.logger.logs →
      Reachable Sprintf (Logger.call Sprintf c s).1

/-! ## The package-level standard logger -/

/-- The package-level variables: `std` and the mirrors `IsWarn`, `IsInfo`,
`IsDebug`; `env` is the environment the package runs in. -/
structure Pkg where
  std : Logger
  IsWarn : Bool
  IsInfo : Bool
  IsDebug : Bool
  env : Env

/-- Package initialisation: `var std *Logger = New(ErrorLevel, log.Default())`
and the three booleans at their zero value; `logDefault` is the object
`log.Default()` returns. -/
def Pkg.init (logDefault : LogRef) (env : Env) : Pkg :=
  { std := New ErrorLevel logDefault env,
    IsWarn := false, IsInfo := false, IsDebug := false, env := env }

/-- Go: `func SetLevel(newLevel Level) Level`. -/
def SetLevel (p : Pkg) (newLevel : Level) : Pkg × Level :=
  let (std, origLevel) := p.std.SetLevel newLevel
  let p := { p with std := std }
  let p := { p with IsWarn := p.std.IsWarn }
  let p := { p with IsInfo := p.std.IsInfo }
  let p := { p with IsDebug := p.std.IsDebug }
  (p, origLevel)

/-- Go: `func AddWriter(newWriter io.Writer, prefix string, flags int) error`. -/
def AddWriter (p : Pkg) (fresh : LogRef) (newWriter : Writer) (pfx : String)
    (flags : Int) : Pkg × Outcome (Option String) :=
  let ((std, e), env) := p.std.AddWriter fresh newWriter pfx flags p.env
  ({ p with std := std, env := env }, e)

/-- Go: `func AddLogger(newLogger *log.Logger) error`. -/
def AddLogger (p : Pkg) (newLogger : LogRef) : Pkg × Outcome (Option String) :=
  let (std, e) := p.std.AddLogger newLogger p.env
  ({ p with std := std }, e)

/-- Go: `func Debug(msg ...any)`. -/
def Debug (p : Pkg) (msg : List Arg) : Pkg :=
  if p.IsDebug then { p with env := p.std.output debugLabel (fmt_Sprint msg) p.env } else p

/-- Go: `func Debugf(msgFmt string, msgArgs ...any)`. -/
def Debugf (Sprintf : String → List Arg → String) (p : Pkg) (msgFmt : String)
    (msgArgs : List Arg) : Pkg :=
  if p.IsDebug then
    { p with env := p.std.output debugLabel (Sprintf msgFmt msgArgs) p.env }
  else p

/-- Go: `func Info(msg ...any)`. -/
def Info (p : Pkg) (msg : List Arg) : Pkg :=
  if p.IsInfo then { p with env := p.std.output infoLabel (fmt_Sprint msg) p.env } else p

/-- Go: `func Infof(msgFmt string, msgArgs ...any)`. -/
def Infof (Sprintf : String → List Arg → String) (p : Pkg) (msgFmt : String)
    (msgArgs : List Arg) : Pkg :=
  if p.IsInfo then
    { p with env := p.std.output infoLabel (Sprintf msgFmt msgArgs) p.env }
  else p

/-- Go: `func Warn(msg ...any)`. -/
def Warn (p : Pkg) (msg : List Arg) : Pkg :=
  if p.IsWarn then { p with env := p.std.output warnLabel (fmt_Sprint msg) p.env } else p

/-- Go: `func Warnf(msgFmt string, msgArgs ...any)`. -/
def Warnf (Sprintf : String → List Arg → String) (p : Pkg) (msgFmt : String)
    (msgArgs : List Arg) : Pkg :=
  if p.IsWarn then
    { p with env := p.std.output warnLabel (Sprintf msgFmt msgArgs) p.env }
  else p

/-- Go: `func Error(msg ...any)`. -/
def Error (p : Pkg) (msg : List Arg) : Pkg :=
  { p with env := p.std.output errorLabel (fmt_Sprint msg) p.env }

/-- Go: `func Errorf(msgFmt string, msgArgs ...any)`. -/
def Errorf (Sprintf : String → List Arg → String) (p : Pkg) (msgFmt : String)
    (msgArgs : List Arg) : Pkg :=
  { p with env := p.std.output errorLabel (Sprintf msgFmt msgArgs) p.env }

/-- Go: `func Close(closable io.Closer, args ...any)`. -/
def Close (p : Pkg) (closable : Closer) (args : List Arg) : Pkg :=
  { p with env := p.std.Close closable args p.env }

/-- Go: `func Closef(closable io.Closer, fmtMsg string, fmtArgs ...any)`. -/
def Closef (Sprintf : String → List Arg → String) (p : Pkg) (closable : Closer)
    (fmtMsg : String) (fmtArgs : List Arg) : Pkg :=
  { p with env := p.std.Closef Sprintf closable fmtMsg fmtArgs p.env }

/-- The package-level function a call names. -/
def Pkg.call (Sprintf : String → List Arg → String) (c : Call) (p : Pkg) :
    Pkg × Ret :=
  match c with
  | .SetLevel n => let (p, last) := SetLevel p n; (p, .level last)
  | .AddWriter fresh w pfx flags =>
    let (p, e) := AddWriter p fresh w pfx flags; (p, Ret.ofOutcome e)
  | .AddLogger l => let (p, e) := AddLogger p l; (p, Ret.ofOutcome e)
  | .Debug msg => (Debug p msg, .unit)
  | .Debugf f a => (Debugf Sprintf p f a, .unit)
  | .Info msg => (Info p msg, .unit)
  | .Infof f a => (Infof Sprintf p f a, .unit)
  | .Warn msg => (Warn p msg, .unit)
  | .Warnf f a => (Warnf Sprintf p f a, .unit)
  | .Error msg => (Error p msg, .unit)
  | .Errorf f a => (Errorf Sprintf p f a, .unit)
  | .Close c args => (Close p c args, .unit)
  | .Closef c f a => (Closef Sprintf p c f a, .unit)

/-- The states of the package: the one after initialisation, and every state
a call of a package-level function leads to. -/
inductive Pkg.Reachable (Sprintf : String → List Arg → String) : Pkg → Prop where
  | init (logDefault : LogRef) (env : Env) :
      Pkg.Reachable Sprintf (Pkg.init logDefault env)
  | step (c : Call) (p : Pkg) :
      Pkg.Reachable Sprintf p → c.admissible p.std.logs →
      Pkg.Reachable Sprintf (Pkg.call Sprintf c p).1

/-- Go: `fmt.Sprintf(format, a...)` on the characters of the format, for
formats in which every `%` starts `%%`, `%v` or `%s`, where `%s` is applied
to strings and errors only and there are as many operands as verbs: plain
text is copied, `%%` gives `%` and a verb gives the textual form of the
next operand.  A verb with no operand left gives `%!v(MISSING)` and a `%`
at the very end `%!(NOVERB)`, as in Go.  It serves as a concrete instance of
the `Sprintf` parameter. -/
def sprintfChars : List Char → List Arg → List Char
  | [], _ => []
  | ['%'], _ => "%!(NOVERB)".data
  | '%' :: '%' :: rest, args => '%' :: sprintfChars rest args
  | '%' :: v :: rest, [] => "%!".data ++ v :: "(MISSING)".data ++ sprintfChars rest []
  | '%' :: _ :: rest, a :: args => a.text.data ++ sprintfChars rest args
  | c :: rest, args => c :: sprintfChars rest args

/-- Go: `fmt.Sprintf` on the fragment of `sprintfChars`. -/
def sprintfVS (msgFmt : String) (msgArgs : List Arg) : String :=
  String.mk (sprintfChars msgFmt.data msgArgs)

/-! ## Specification vocabulary -/

/-- The environment after one `Print` of `r` on every sink of `logs`, in the
order of `logs`, and nothing else. -/
def Env.wrote (env : Env) (logs : List LogRef) (r : String) : Env :=
  { env with printed := env.printed ++ logs.map (fun l => (l, r)) }

/-- `FansOut s s2 r`: from `s` to `s2` exactly one write was made to every
attached sink, in attachment order, each carrying `r`; the logger (threshold,
booleans, sink list) and the rest of the environment are the same. -/
def FansOut (s s2 : State) (r : String) : Prop :=
  s2.logger = s.logger ∧
  s2.env.printed = s.env.printed ++ s.logger.logs.map (fun l => (l, r)) ∧
  s2.env.printed.length = s.env.printed.length + s.logger.logs.length ∧
  s2.env.writerOf = s.env.writerOf ∧
  s2.env.closeCalls = s.env.closeCalls

/-- The properties every reachable state of a `Logger` has: the cached
booleans follow the threshold, there is at least one sink, and the sinks
wrap pairwise distinct writers. -/
structure Inv (logger : Logger) (env : Env) : Prop where
  warn : logger.IsWarn = decide (logger.level ≥ WarnLevel)
  info : logger.IsInfo = decide (logger.level ≥ InfoLevel)
  debug : logger.IsDebug = decide (logger.level ≥ DebugLevel)
  nonempty : logger.logs ≠ []
  writers : (logger.logs.map env.writerOf).Nodup

/-- The package variables `IsWarn`, `IsInfo`, `IsDebug` equal the fields of the
same name of the standard logger. -/
def Mirror (p : Pkg) : Prop :=
  p.IsWarn = p.std.IsWarn ∧ p.IsInfo = p.std.IsInfo ∧ p.IsDebug = p.std.IsDebug

/-- The textual forms of the operands concatenated with no separator. -/
def concatText (a : List Arg) : String :=
  String.join (a.map Arg.text)

/-- The textual forms of the operands concatenated, a single space being
inserted between two consecutive operands exactly when neither of them is
a string. -/
def concatSpaced : List Arg → String
  | [] => ""
  | [a] => a.text
  | a :: b :: rest =>
    a.text ++ (if !a.isString && !b.isString then " " else "") ++ concatSpaced (b :: rest)

/-- No two consecutive operands are both non-strings. -/
def NoAdjacentNonStrings (a : List Arg) : Prop :=
  List.Chain' (fun x y => x.isString = true ∨ y.isString = true) a

/-- A writer of a comparable dynamic type, such as an `*os.File`. -/
def fileWriter (v : Nat) : Writer :=
  { dynType := .comparable 0, value := v }

/-- A writer of an uncomparable dynamic type, such as
`type funcWriter func([]byte) (int, error)`. -/
def funcWriter (v : Nat) : Writer :=
  { dynType := .uncomparable 1, value := v }

/-- An environment for concrete instances: object `l` wraps the file
`l + 100`, nothing printed, nothing closed. -/
def env0 : Env :=
  { writerOf := fun l => fileWriter (l + 100), printed := [], closeCalls := [] }

/-- An environment in which object 7 is `log.New(funcWriter(nop), "", 0)`, a
sink wrapping a func-typed writer; every other object `l` wraps the file
`l + 100`. -/
def envFunc : Env :=
  { writerOf := fun l => if l = 7 then funcWriter 0 else fileWriter (l + 100),
    printed := [], closeCalls := [] }

/-- No comparison of the writer of `s` with the writer of an attached sink
panics. -/
def WritersComparable (writerOf : LogRef → Writer) (logs : List LogRef) (s : LogRef) : Prop :=
  ∀ l ∈ logs, iface_eq (writerOf l) (writerOf s) ≠ .panics

/-- A closer whose `Close` fails every time with `boom`. -/
def failingCloser : Closer :=
  { ref := 1, result := fun _ => some "boom" }

/-- A closer such as an open file: the first `Close` succeeds, every later
one fails with `already closed`. -/
def fileCloser : Closer :=
  { ref := 2, result := fun n => if n = 0 then none else some "already closed" }

/-- A concrete reachable state: `New(WarnLevel, l7)` followed by
`SetLevel(InfoLevel)`, in `env0`. -/
def state0 : State :=
  (Logger.call sprintfVS (.SetLevel InfoLevel)
    { logger := New WarnLevel 7 env0, env := env0 }).1

/-- A concrete reachable state with two sinks: `New(DebugLevel, l7)` followed
by `AddLogger(l8)`, in `env0`. -/
def state1 : State :=
  (Logger.call sprintfVS (.AddLogger 8)
    { logger := New DebugLevel 7 env0, env := env0 }).1


/-! ## Lemmas on the standard library model -/

theorem splitNL_ne_nil (cs : List Char) : splitNL cs ≠ [] := by
  cases cs with
  | nil => simp [splitNL]
  | cons c cs =>
    unfold splitNL
    split
    · simp
    · split <;> simp

theorem splitNL_cons_of_ne (c : Char) (cs : List Char) (hc : c ≠ '\n') :
    splitNL (c :: cs) = (c :: (splitNL cs).headD []) :: (splitNL cs).tail := by
  have h := splitNL_ne_nil cs
  rw [splitNL, if_neg hc]
  cases hs : splitNL cs with
  | nil => exact absurd hs h
  | cons l ls => simp

theorem splitNL_append_of_not_mem (a b : List Char) (ha : '\n' ∉ a) :
    splitNL (a ++ b) = (a ++ (splitNL b).headD []) :: (splitNL b).tail := by
  induction a with
  | nil =>
    have h := splitNL_ne_nil b
    cases hs : splitNL b with
    | nil => exact absurd hs h
    | cons l ls => simp [hs]
  | cons c a ih =>
    have hc : c ≠ '\n' := fun e => ha (by simp [e])
    have ha2 : '\n' ∉ a := fun e => ha (by simp [e])
    rw [List.cons_append, splitNL_cons_of_ne c _ hc, ih ha2]
    simp

theorem splitNL_not_mem (cs : List Char) : ∀ l ∈ splitNL cs, '\n' ∉ l := by
  induction cs with
  | nil => simp [splitNL]
  | cons c cs ih =>
    by_cases hc : c = '\n'
    · rw [splitNL, if_pos hc]
      intro l hl
      rcases List.mem_cons.1 hl with h | h
      · simp [h]
      · exact ih l h
    · rw [splitNL_cons_of_ne c cs hc]
      have h := splitNL_ne_nil cs
      cases hs : splitNL cs with
      | nil => exact absurd hs h
      | cons l0 ls =>
        rw [hs] at ih
        intro l hl
        simp only [List.headD_cons, List.tail_cons] at hl
        rcases List.mem_cons.1 hl with h | h
        · subst h
          intro hm
          rcases List.mem_cons.1 hm with h1 | h1
          · exact hc h1.symm
          · exact ih l0 (by simp) h1
        · exact ih l (by simp [h])

/-- Joining the lines `strings.Split` returns with line breaks gives the
string back. -/
theorem splitNL_join (cs : List Char) :
    List.intercalate ['\n'] (splitNL cs) = cs := by
  induction cs with
  | nil => simp [splitNL, List.intercalate]
  | cons c cs ih =>
    have h := splitNL_ne_nil cs
    by_cases hc : c = '\n'
    · rw [splitNL, if_pos hc]
      cases hs : splitNL cs with
      | nil => exact absurd hs h
      | cons l ls =>
        rw [hs] at ih
        simp only [List.intercalate] at ih ⊢
        simp [List.intersperse, ih, hc]
    · rw [splitNL_cons_of_ne c cs hc]
      cases hs : splitNL cs with
      | nil => exact absurd hs h
      | cons l ls =>
        rw [hs] at ih
        simp only [List.intercalate] at ih ⊢
        cases ls with
        | nil => simpa [List.intersperse] using ih
        | cons l2 ls2 => simpa [List.intersperse] using ih

theorem strings_Split_ne_nil (s : String) : strings_Split s ≠ [] := by
  simp [strings_Split, splitNL_ne_nil]

theorem strings_Split_not_mem (s : String) : ∀ l ∈ strings_Split s, '\n' ∉ l.data := by
  intro l hl
  simp only [strings_Split, List.mem_map] at hl
  obtain ⟨cs, hcs, rfl⟩ := hl
  exact splitNL_not_mem _ cs hcs

theorem intercalate_go_append (x acc sep : String) (as : List String) :
    String.intercalate.go (x ++ acc) sep as = x ++ String.intercalate.go acc sep as := by
  induction as generalizing acc with
  | nil => simp [String.intercalate.go]
  | cons a as ih =>
    simp only [String.intercalate.go]
    rw [String.append_assoc, String.append_assoc, ih, String.append_assoc]

theorem foldl_enumFrom_eq_go (sep : String) (as : List String) (n : Nat) (acc : String) :
    (as.enumFrom (n + 1)).foldl
      (fun r il => (if il.1 > 0 then r ++ sep else r) ++ il.2) acc
      = String.intercalate.go acc sep as := by
  induction as generalizing n acc with
  | nil => simp [String.intercalate.go]
  | cons a as ih =>
    simp only [List.enumFrom_cons, List.foldl_cons, String.intercalate.go]
    rw [ih]
    simp

/-- The first loop of `output` joins the lines of the message with a line
break followed by the continuation label. -/
theorem outputText_eq (label msg : String) :
    outputText label msg
      = label ++ String.intercalate ("\n" ++ continueLabel) (strings_Split msg) := by
  unfold outputText
  cases hs : strings_Split msg with
  | nil => exact absurd hs (strings_Split_ne_nil msg)
  | cons a as =>
    simp only [List.enum, List.enumFrom_cons, List.foldl_cons, String.intercalate]
    rw [foldl_enumFrom_eq_go]
    simp only [gt_iff_lt, lt_self_iff_false, if_false]
    exact intercalate_go_append label a _ as

theorem strings_Split_go_empty (sep1 : String) (as : List String)
    (has : ∀ l ∈ as, '\n' ∉ l.data) (hsep : '\n' ∉ sep1.data) :
    strings_Split (String.intercalate.go "" ("\n" ++ sep1) as)
      = "" :: as.map (fun a => sep1 ++ a) := by
  induction as with
  | nil => simp [String.intercalate.go, strings_Split, splitNL]
  | cons a as ih =>
    have h1 : String.intercalate.go "" ("\n" ++ sep1) (a :: as)
        = "\n" ++ ((sep1 ++ a) ++ String.intercalate.go "" ("\n" ++ sep1) as) := by
      simp only [String.intercalate.go]
      have := intercalate_go_append ("" ++ ("\n" ++ sep1) ++ a) "" ("\n" ++ sep1) as
      simp only [String.append_empty] at this
      rw [this]
      simp [String.append_assoc]
    rw [h1]
    have ih2 := ih (fun l hl => has l (by simp [hl]))
    have ha : '\n' ∉ (sep1 ++ a).data := by
      simp only [String.data_append, List.mem_append, not_or]
      exact ⟨hsep, has a (by simp)⟩
    simp only [strings_Split] at ih2 ⊢
    have hd : ("\n" ++ ((sep1 ++ a) ++ String.intercalate.go "" ("\n" ++ sep1) as)).data
        = '\n' :: ((sep1 ++ a).data ++ (String.intercalate.go "" ("\n" ++ sep1) as).data) := by
      simp [String.data_append]
    rw [hd, splitNL, if_pos rfl, splitNL_append_of_not_mem _ _ ha]
    have h3 := splitNL_ne_nil (String.intercalate.go "" ("\n" ++ sep1) as).data
    cases hs : splitNL (String.intercalate.go "" ("\n" ++ sep1) as).data with
    | nil => exact absurd hs h3
    | cons l ls =>
      rw [hs] at ih2
      simp only [List.map_cons, List.cons.injEq] at ih2
      obtain ⟨hl, hls⟩ := ih2
      have hl2 : l = [] := by
        have := congrArg String.data hl
        simpa using this
      simp only [List.map_cons, List.headD_cons, List.tail_cons, hls, hl2, List.append_nil]

theorem map_enumFrom_succ (label : String) (as : List String) (n : Nat) :
    List.map (fun a => continueLabel ++ a) as
      = List.map (fun il : Nat × String => (if il.1 = 0 then label else continueLabel) ++ il.2)
          (List.enumFrom (n + 1) as) := by
  induction as generalizing n with
  | nil => simp
  | cons b bs ih => simp [List.enumFrom_cons, ih (n + 1)]

/-- The lines of the string `output` builds: the first line of the message
behind the label, every later line behind the continuation label. -/
theorem strings_Split_relabelled (label msg : String) (hl : '\n' ∉ label.data) :
    strings_Split (label ++ String.intercalate ("\n" ++ continueLabel) (strings_Split msg))
      = (strings_Split msg).enum.map
          (fun il => (if il.1 = 0 then label else continueLabel) ++ il.2) := by
  have hmem := strings_Split_not_mem msg
  cases hs : strings_Split msg with
  | nil => exact absurd hs (strings_Split_ne_nil msg)
  | cons a as =>
    rw [hs] at hmem
    have has : ∀ l ∈ as, '\n' ∉ l.data := fun l h => hmem l (by simp [h])
    have ha : '\n' ∉ (label ++ a).data := by
      simp only [String.data_append, List.mem_append, not_or]
      exact ⟨hl, hmem a (by simp)⟩
    have hgo := strings_Split_go_empty continueLabel as has (by decide)
    simp only [String.intercalate]
    have h1 := intercalate_go_append a "" ("\n" ++ continueLabel) as
    simp only [String.append_empty] at h1
    rw [h1, ← String.append_assoc]
    simp only [strings_Split] at hgo ⊢
    rw [String.data_append, splitNL_append_of_not_mem _ _ ha]
    have h3 := splitNL_ne_nil (String.intercalate.go "" ("\n" ++ continueLabel) as).data
    cases hs2 : splitNL (String.intercalate.go "" ("\n" ++ continueLabel) as).data with
    | nil => exact absurd hs2 h3
    | cons l ls =>
      rw [hs2] at hgo
      simp only [List.map_cons, List.cons.injEq] at hgo
      obtain ⟨hl1, hls⟩ := hgo
      have hl2 : l = [] := by
        have := congrArg String.data hl1
        simpa using this
      simp only [List.map_cons, List.headD_cons, List.tail_cons, hls, hl2, List.append_nil,
        List.enum, List.enumFrom_cons]
      refine congrArg₂ _ ?_ ?_
      · simp only [if_true]
      · exact map_enumFrom_succ label as 0
/-! ## Lemmas on the methods -/

theorem foldl_log_Print (r : String) (logs : List LogRef) (env : Env) :
    logs.foldl (fun env l => log_Print l r env) env = env.wrote logs r := by
  induction logs generalizing env with
  | nil => simp [Env.wrote]
  | cons l ls ih =>
    rw [List.foldl_cons, ih]
    simp [Env.wrote, log_Print]

theorem output_eq (logger : Logger) (label msg : String) (env : Env) :
    logger.output label msg env = env.wrote logger.logs (outputText label msg) := by
  simp [Logger.output, foldl_log_Print]

theorem iface_eq_true (a b : Writer) (h : iface_eq a b = .returns true) : a = b := by
  cases a with
  | mk ta va =>
    cases b with
    | mk tb vb =>
      unfold iface_eq at h
      by_cases ht : ta = tb
      · subst ht
        cases ta with
        | comparable n => simp at h; simp [h]
        | uncomparable n => simp at h
      · simp [ht] at h

theorem iface_eq_false (a b : Writer) (h : iface_eq a b = .returns false) : a ≠ b := by
  intro e
  subst e
  unfold iface_eq at h
  cases hd : a.dynType with
  | comparable n => simp [hd] at h
  | uncomparable n => simp [hd] at h

theorem iface_eq_of_eq (a b : Writer) (h : a = b) (hp : iface_eq a b ≠ .panics) :
    iface_eq a b = .returns true := by
  subst h
  unfold iface_eq at hp ⊢
  cases hd : a.dynType with
  | comparable n => simp
  | uncomparable n => simp [hd] at hp

theorem iface_eq_of_ne (a b : Writer) (h : a ≠ b) (hp : iface_eq a b ≠ .panics) :
    iface_eq a b = .returns false := by
  cases hr : iface_eq a b with
  | panics => exact absurd hr hp
  | returns v =>
    cases v with
    | false => rfl
    | true => exact absurd (iface_eq_true a b hr) h

theorem scan_eq_none_iff (wr : LogRef → Writer) (n : LogRef) (logs : List LogRef) :
    AddLogger.scan wr n logs = .returns none
      ↔ n ∉ logs ∧ ∀ l ∈ logs, iface_eq (wr l) (wr n) = .returns false := by
  induction logs with
  | nil => simp [AddLogger.scan]
  | cons l ls ih =>
    unfold AddLogger.scan
    by_cases h1 : l = n
    · simp [h1]
    · simp only [if_neg h1, List.mem_cons, not_or]
      cases hc : iface_eq (wr l) (wr n) with
      | panics =>
        simp only [reduceCtorEq, false_iff, not_and]
        intro _ hall
        have := hall l (Or.inl rfl)
        rw [hc] at this
        exact absurd this (by simp)
      | returns v =>
        cases v with
        | true =>
          simp only [Outcome.returns.injEq, reduceCtorEq, false_iff, not_and]
          intro _ hall
          have := hall l (Or.inl rfl)
          rw [hc] at this
          exact absurd this (by simp)
        | false =>
          simp only [ih]
          constructor
          · rintro ⟨ha, hb⟩
            refine ⟨⟨fun e => h1 e.symm, ha⟩, ?_⟩
            intro x hx
            rcases hx with rfl | hx
            · exact hc
            · exact hb x hx
          · rintro ⟨⟨_, ha⟩, hb⟩
            exact ⟨ha, fun x hx => hb x (Or.inr hx)⟩

theorem scan_of_mem (wr : LogRef → Writer) (n : LogRef) (logs : List LogRef)
    (hnd : (logs.map wr).Nodup) (hcmp : WritersComparable wr logs n) (hmem : n ∈ logs) :
    AddLogger.scan wr n logs = .returns (some "duplicate logger added") := by
  induction logs with
  | nil => simp at hmem
  | cons l ls ih =>
    unfold AddLogger.scan
    by_cases h1 : l = n
    · simp [h1]
    · have hn : n ∈ ls := by
        rcases List.mem_cons.1 hmem with h | h
        · exact absurd h.symm h1
        · exact h
      rw [List.map_cons, List.nodup_cons] at hnd
      have h2 : wr l ≠ wr n := fun e => hnd.1 (e ▸ List.mem_map_of_mem wr hn)
      have h3 := iface_eq_of_ne _ _ h2 (hcmp l (by simp))
      simp only [if_neg h1, h3]
      exact ih hnd.2 (fun x hx => hcmp x (List.mem_cons_of_mem _ hx)) hn

theorem scan_of_writer (wr : LogRef → Writer) (n : LogRef) (logs : List LogRef)
    (hcmp : WritersComparable wr logs n)
    (hmem : n ∉ logs) (hw : ∃ l ∈ logs, wr l = wr n) :
    AddLogger.scan wr n logs = .returns (some "duplicate os.Writer added") := by
  induction logs with
  | nil => simp at hw
  | cons l ls ih =>
    unfold AddLogger.scan
    have h1 : l ≠ n := fun e => hmem (by simp [e])
    by_cases h2 : wr l = wr n
    · have h3 := iface_eq_of_eq _ _ h2 (hcmp l (by simp))
      simp only [if_neg h1, h3]
    · have h3 := iface_eq_of_ne _ _ h2 (hcmp l (by simp))
      simp only [if_neg h1, h3]
      apply ih (fun x hx => hcmp x (List.mem_cons_of_mem _ hx))
        (fun h => hmem (List.mem_cons_of_mem _ h))
      obtain ⟨x, hx, hxw⟩ := hw
      rcases List.mem_cons.1 hx with h | h
      · exact absurd (h ▸ hxw) h2
      · exact ⟨x, h, hxw⟩

/-- The loop panics exactly when it reaches, before any sink that makes it
return, a sink whose writer cannot be compared with the new one. -/
theorem scan_panics_of_first (wr : LogRef → Writer) (n l : LogRef) (rest : List LogRef)
    (h1 : l ≠ n) (hp : iface_eq (wr l) (wr n) = .panics) :
    AddLogger.scan wr n (l :: rest) = .panics := by
  simp only [AddLogger.scan, if_neg h1, hp]

theorem inv_of_same (logger : Logger) (env env2 : Env) (h : Inv logger env)
    (hw : env2.writerOf = env.writerOf) : Inv logger env2 :=
  ⟨h.warn, h.info, h.debug, h.nonempty, by rw [hw]; exact h.writers⟩

theorem inv_New (level : Level) (logLogger : LogRef) (env : Env) :
    Inv (New level logLogger env) env := by
  constructor <;> simp [SzLog.New, Logger.zero, Logger.SetLevel, Logger.AddLogger, AddLogger.scan]

theorem inv_SetLevel (logger : Logger) (env : Env) (n : Level) (h : Inv logger env) :
    Inv (logger.SetLevel n).1 env := by
  constructor
  · simp [Logger.SetLevel]
  · simp [Logger.SetLevel]
  · simp [Logger.SetLevel]
  · exact h.nonempty
  · exact h.writers

theorem inv_AddLogger (logger : Logger) (env : Env) (l : LogRef) (h : Inv logger env) :
    Inv (logger.AddLogger l env).1 env := by
  unfold Logger.AddLogger
  cases hs : AddLogger.scan env.writerOf l logger.logs with
  | panics => exact h
  | returns r =>
    cases r with
    | some e => exact h
    | none =>
      obtain ⟨_, hw⟩ := (scan_eq_none_iff _ _ _).1 hs
      refine ⟨h.warn, h.info, h.debug, by simp, ?_⟩
      simp only [List.map_append, List.map_cons, List.map_nil]
      refine List.Nodup.append h.writers (List.nodup_singleton _) ?_
      intro x hx hx2
      simp only [List.mem_singleton] at hx2
      obtain ⟨y, hy, hyx⟩ := List.mem_map.1 hx
      exact iface_eq_false _ _ (hw y hy) (hyx.trans hx2)

/-- The call of `AddLogger` inside `New` runs on an empty sink list: it makes no
comparison, returns nil and attaches the sink. -/
theorem New_AddLogger_returns (level : Level) (logLogger : LogRef) (env : Env) :
    ((Logger.zero.SetLevel level).1.AddLogger logLogger env).2 = .returns none ∧
    (New level logLogger env).logs = [logLogger] := by
  constructor <;> rfl

theorem map_writerOf_log_New (logs : List LogRef) (fresh : LogRef) (w : Writer)
    (env : Env) (hf : fresh ∉ logs) :
    logs.map (log_New fresh w env).writerOf = logs.map env.writerOf := by
  apply List.map_congr_left
  intro l hl
  have : l ≠ fresh := fun e => hf (e ▸ hl)
  simp [log_New, this]

theorem inv_AddWriter (logger : Logger) (env : Env) (fresh : LogRef) (w : Writer)
    (pfx : String) (flags : Int) (h : Inv logger env) (hf : fresh ∉ logger.logs) :
    Inv (logger.AddWriter fresh w pfx flags env).1.1 (logger.AddWriter fresh w pfx flags env).2 := by
  simp only [Logger.AddWriter]
  apply inv_AddLogger
  exact ⟨h.warn, h.info, h.debug, h.nonempty, by
    rw [map_writerOf_log_New _ _ _ _ hf]; exact h.writers⟩

theorem Close_writerOf (logger : Logger) (c : Closer) (args : List Arg) (env : Env) :
    (logger.Close c args env).writerOf = env.writerOf := by
  unfold Logger.Close io_Close
  cases c.result (List.count c.ref env.closeCalls) <;>
    simp [Logger.Error, output_eq, Env.wrote]

theorem Closef_writerOf (Sprintf : String → List Arg → String) (logger : Logger)
    (c : Closer) (f : String) (a : List Arg) (env : Env) :
    (logger.Closef Sprintf c f a env).writerOf = env.writerOf := by
  unfold Logger.Closef io_Close
  cases c.result (List.count c.ref env.closeCalls) <;>
    simp [Logger.Error, output_eq, Env.wrote]

theorem inv_call (Sprintf : String → List Arg → String) (c : Call) (s : State)
    (h : Inv s.logger s.env) (ha : c.admissible s.logger.logs) :
    Inv (Logger.call Sprintf c s).1.logger (Logger.call Sprintf c s).1.env := by
  cases c with
  | SetLevel n => exact inv_SetLevel _ _ n h
  | AddWriter fresh w pfx flags => exact inv_AddWriter _ _ fresh w pfx flags h ha
  | AddLogger l => exact inv_AddLogger _ _ l h
  | Debug msg =>
    apply inv_of_same _ _ _ h
    simp only [Logger.call, Logger.Debug, output_eq]; split <;> rfl
  | Debugf f a =>
    apply inv_of_same _ _ _ h
    simp only [Logger.call, Logger.Debugf, output_eq]; split <;> rfl
  | Info msg =>
    apply inv_of_same _ _ _ h
    simp only [Logger.call, Logger.Info, output_eq]; split <;> rfl
  | Infof f a =>
    apply inv_of_same _ _ _ h
    simp only [Logger.call, Logger.Infof, output_eq]; split <;> rfl
  | Warn msg =>
    apply inv_of_same _ _ _ h
    simp only [Logger.call, Logger.Warn, output_eq]; split <;> rfl
  | Warnf f a =>
    apply inv_of_same _ _ _ h
    simp only [Logger.call, Logger.Warnf, output_eq]; split <;> rfl
  | Error msg =>
    apply inv_of_same _ _ _ h
    simp only [Logger.call, Logger.Error, output_eq]; rfl
  | Errorf f a =>
    apply inv_of_same _ _ _ h
    simp only [Logger.call, Logger.Errorf, output_eq]; rfl
  | Close c args => exact inv_of_same _ _ _ h (Close_writerOf _ _ _ _)
  | Closef c f a => exact inv_of_same _ _ _ h (Closef_writerOf _ _ _ _ _ _)

theorem reachable_inv (Sprintf : String → List Arg → String) (s : State)
    (h : Reachable Sprintf s) : Inv s.logger s.env := by
  induction h with
  | init level l env => exact inv_New level l env
  | step c s _ ha ih => exact inv_call Sprintf c s ih ha

/-! ## Lemmas on `fmt.Sprint`, `Close` and the package-level functions -/

theorem doPrint_false (prev : Bool) (l : List Arg) :
    doPrint false prev l
      = match l with
        | [] => ""
        | b :: r => (if !prev && !b.isString then " " else "") ++ concatSpaced (b :: r) := by
  induction l generalizing prev with
  | nil => simp [doPrint]
  | cons a rest ih =>
    simp only [doPrint, Bool.not_false, Bool.true_and]
    rw [ih a.isString]
    cases rest with
    | nil => simp [concatSpaced, Bool.and_comm]
    | cons b r => simp [concatSpaced, Bool.and_comm, String.append_assoc]

/-- The value of `fmt.Sprint`: the textual forms concatenated, with a space
between two consecutive operands exactly when neither is a string. -/
theorem fmt_Sprint_eq (l : List Arg) : fmt_Sprint l = concatSpaced l := by
  cases l with
  | nil => simp [fmt_Sprint, doPrint, concatSpaced]
  | cons a rest =>
    simp only [fmt_Sprint, doPrint, Bool.not_true, Bool.false_and, Bool.false_eq_true,
      if_false, String.empty_append]
    rw [doPrint_false]
    cases rest with
    | nil => simp [concatSpaced]
    | cons b r => simp [concatSpaced, String.append_assoc]

theorem String_join_cons (a : String) (l : List String) :
    String.join (a :: l) = a ++ String.join l := by
  apply String.ext
  simp [String.join_eq, String.data_append]

/-- Without two consecutive non-string operands no space is inserted. -/
theorem concatSpaced_eq_concatText (l : List Arg) (h : NoAdjacentNonStrings l) :
    concatSpaced l = concatText l := by
  induction l with
  | nil => simp [concatSpaced, concatText, String.join]
  | cons a rest ih =>
    cases rest with
    | nil => simp [concatSpaced, concatText, String.join]
    | cons b r =>
      unfold NoAdjacentNonStrings at h ih
      rw [List.chain'_cons] at h
      have ih2 := ih h.2
      have hsp : (if (!a.isString && !b.isString) = true then " " else "") = "" := by
        rcases h.1 with h1 | h1 <;> simp [h1]
      simp only [concatSpaced, hsp, String.append_empty]
      rw [ih2]
      simp only [concatText, List.map_cons, String_join_cons]

theorem all_strings_noAdjacent (l : List Arg) (h : ∀ a ∈ l, a.isString = true) :
    NoAdjacentNonStrings l := by
  unfold NoAdjacentNonStrings
  induction l with
  | nil => exact List.chain'_nil
  | cons a rest ih =>
    cases rest with
    | nil => exact List.chain'_singleton a
    | cons b r =>
      rw [List.chain'_cons]
      exact ⟨Or.inl (h a (by simp)), ih (fun x hx => h x (List.mem_cons_of_mem _ hx))⟩

theorem Sprint_close_message (msg e : String) :
    fmt_Sprint [.str "Close", .str msg, .str " caused: ", .err e]
      = "Close" ++ msg ++ " caused: " ++ e := by
  simp [fmt_Sprint, doPrint, Arg.isString, Arg.text, String.append_assoc]

/-- What `Close` does, by the result of the closer. -/
theorem Close_eq (logger : Logger) (closable : Closer) (args : List Arg) (env : Env) :
    logger.Close closable args env
      = match closable.result (env.closeCalls.count closable.ref) with
        | none => { env with closeCalls := env.closeCalls ++ [closable.ref] }
        | some e =>
          Env.wrote { env with closeCalls := env.closeCalls ++ [closable.ref] } logger.logs
            (outputText errorLabel
              ("Close" ++ (if args = [] then "" else " " ++ concatSpaced args)
                ++ " caused: " ++ e)) := by
  unfold Logger.Close io_Close
  cases hr : closable.result (List.count closable.ref env.closeCalls) with
  | none => rfl
  | some e =>
    simp only [Logger.Error, output_eq]
    rw [Sprint_close_message]
    cases args with
    | nil => simp
    | cons a r => simp [fmt_Sprint_eq]

theorem AddLogger_fields (logger : Logger) (l : LogRef) (env : Env) :
    (logger.AddLogger l env).1.IsWarn = logger.IsWarn ∧
    (logger.AddLogger l env).1.IsInfo = logger.IsInfo ∧
    (logger.AddLogger l env).1.IsDebug = logger.IsDebug := by
  unfold Logger.AddLogger
  cases AddLogger.scan env.writerOf l logger.logs with
  | panics => simp
  | returns r => cases r <;> simp

theorem mirror_init (logDefault : LogRef) (env : Env) : Mirror (Pkg.init logDefault env) := by
  have h := AddLogger_fields (Logger.zero.SetLevel ErrorLevel).1 logDefault env
  refine ⟨?_, ?_, ?_⟩
  · exact (h.1.trans rfl).symm
  · exact (h.2.1.trans rfl).symm
  · exact (h.2.2.trans rfl).symm

theorem mirror_call (Sprintf : String → List Arg → String) (c : Call) (p : Pkg)
    (h : Mirror p) : Mirror (Pkg.call Sprintf c p).1 := by
  obtain ⟨h1, h2, h3⟩ := h
  cases c with
  | SetLevel n => exact ⟨rfl, rfl, rfl⟩
  | AddWriter fresh w pfx flags =>
    have hf := AddLogger_fields p.std fresh (log_New fresh w p.env)
    exact ⟨h1.trans hf.1.symm, h2.trans hf.2.1.symm, h3.trans hf.2.2.symm⟩
  | AddLogger l =>
    have hf := AddLogger_fields p.std l p.env
    exact ⟨h1.trans hf.1.symm, h2.trans hf.2.1.symm, h3.trans hf.2.2.symm⟩
  | Debug msg => simp only [Pkg.call, Debug]; split <;> exact ⟨h1, h2, h3⟩
  | Debugf f a => simp only [Pkg.call, Debugf]; split <;> exact ⟨h1, h2, h3⟩
  | Info msg => simp only [Pkg.call, Info]; split <;> exact ⟨h1, h2, h3⟩
  | Infof f a => simp only [Pkg.call, Infof]; split <;> exact ⟨h1, h2, h3⟩
  | Warn msg => simp only [Pkg.call, Warn]; split <;> exact ⟨h1, h2, h3⟩
  | Warnf f a => simp only [Pkg.call, Warnf]; split <;> exact ⟨h1, h2, h3⟩
  | Error msg => exact ⟨h1, h2, h3⟩
  | Errorf f a => exact ⟨h1, h2, h3⟩
  | Close c args => exact ⟨h1, h2, h3⟩
  | Closef c f a => exact ⟨h1, h2, h3⟩

theorem pkg_reachable_mirror (Sprintf : String → List Arg → String) (p : Pkg)
    (h : Pkg.Reachable Sprintf p) : Mirror p := by
  induction h with
  | init l env => exact mirror_init l env
  | step c p _ _ ih => exact mirror_call Sprintf c p ih

/-! ## Lemmas on `SetLevel` sequences and on `Closef` -/

theorem SetLevel_SetLevel (logger : Logger) (a T : Level) :
    ((logger.SetLevel a).1.SetLevel T).1 = (logger.SetLevel T).1 := rfl

theorem SetLevel_after_earlier (logger : Logger) (earlier : List Level) (T : Level) :
    ((earlier.foldl (fun l a => (l.SetLevel a).1) logger).SetLevel T).1
      = (logger.SetLevel T).1 := by
  induction earlier generalizing logger with
  | nil => rfl
  | cons a rest ih =>
    rw [List.foldl_cons, ih (logger.SetLevel a).1]
    exact SetLevel_SetLevel logger a T

/-- In a state where the booleans follow the threshold, setting the threshold
to its present value leaves the logger as it is. -/
theorem SetLevel_same (logger : Logger) (env : Env) (h : Inv logger env) :
    (logger.SetLevel logger.level).1 = logger := by
  cases logger with
  | mk level logs d i w =>
    have h1 := h.warn
    have h2 := h.info
    have h3 := h.debug
    simp only at h1 h2 h3
    simp only [Logger.SetLevel, ← h1, ← h2, ← h3]

theorem utf8ByteSize_pos_iff (s : String) : s.utf8ByteSize > 0 ↔ s ≠ "" := by
  cases s with
  | mk cs =>
    cases cs with
    | nil => simp [String.utf8ByteSize, String.utf8ByteSize.go]
    | cons c r =>
      have hc := Char.utf8Size_pos c
      have hne : (String.mk (c :: r)) ≠ "" := by
        intro e
        have := congrArg String.data e
        simp at this
      simp only [String.utf8ByteSize, String.utf8ByteSize.go, gt_iff_lt, ne_eq, hne,
        not_false_eq_true, iff_true]
      omega

/-- What `Closef` does, by the result of the closer. -/
theorem Closef_eq (Sprintf : String → List Arg → String) (logger : Logger)
    (closable : Closer) (fmtMsg : String) (fmtArgs : List Arg) (env : Env) :
    logger.Closef Sprintf closable fmtMsg fmtArgs env
      = match closable.result (env.closeCalls.count closable.ref) with
        | none => { env with closeCalls := env.closeCalls ++ [closable.ref] }
        | some e =>
          Env.wrote { env with closeCalls := env.closeCalls ++ [closable.ref] } logger.logs
            (outputText errorLabel
              ("Close" ++ (if Sprintf fmtMsg fmtArgs = "" then ""
                  else " " ++ Sprintf fmtMsg fmtArgs)
                ++ " caused: " ++ e)) := by
  unfold Logger.Closef io_Close
  cases hr : closable.result (List.count closable.ref env.closeCalls) with
  | none => rfl
  | some e =>
    simp only [Logger.Error, output_eq]
    rw [Sprint_close_message]
    by_cases hs : Sprintf fmtMsg fmtArgs = ""
    · have : ¬ (Sprintf fmtMsg fmtArgs).utf8ByteSize > 0 := by
        rw [utf8ByteSize_pos_iff]; simp [hs]
      rw [if_neg this, if_pos hs, hs]
    · have : (Sprintf fmtMsg fmtArgs).utf8ByteSize > 0 := (utf8ByteSize_pos_iff _).2 hs
      rw [if_pos this, if_neg hs]

theorem sprintfChars_plain (cs : List Char) (h : '%' ∉ cs) : sprintfChars cs [] = cs := by
  induction cs with
  | nil => simp [sprintfChars]
  | cons c r ih =>
    have hc : c ≠ '%' := fun e => h (by simp [e])
    have hr : '%' ∉ r := fun e => h (by simp [e])
    have hstep : sprintfChars (c :: r) [] = c :: sprintfChars r [] := by
      rw [sprintfChars] <;> intros <;> simp_all
    rw [hstep, ih hr]

/-- A format without `%` and without operands renders as itself. -/
theorem sprintfVS_plain (s : String) (h : '%' ∉ s.data) : sprintfVS s [] = s := by
  simp [sprintfVS, sprintfChars_plain s.data h]

theorem concatSpaced_nil_iff_of_ne (args : List Arg) (h : concatSpaced args ≠ "") :
    args ≠ [] := by
  intro e
  rw [e] at h
  exact h rfl

/-! ## The claims -/

/-- C1: in every state of a Logger reachable from New, with threshold T, each
level method and its formatted variant writes its entry (one write per sink,
and there is at least one sink) if and only if its level is at most T, and
leaves the environment as it was otherwise; Error and Errorf write for every
T. -/
theorem level_method_writes_iff_le (Sprintf : String → List Arg → String) (s : State)
    (h : Reachable Sprintf s) (msg : List Arg) (msgFmt : String) (msgArgs : List Arg) :
    s.logger.logs ≠ [] ∧
    s.logger.Debug msg s.env
      = (if DebugLevel ≤ s.logger.level
          then s.env.wrote s.logger.logs (outputText debugLabel (fmt_Sprint msg))
          else s.env) ∧
    s.logger.Debugf Sprintf msgFmt msgArgs s.env
      = (if DebugLevel ≤ s.logger.level
          then s.env.wrote s.logger.logs (outputText debugLabel (Sprintf msgFmt msgArgs))
          else s.env) ∧
    s.logger.Info msg s.env
      = (if InfoLevel ≤ s.logger.level
          then s.env.wrote s.logger.logs (outputText infoLabel (fmt_Sprint msg))
          else s.env) ∧
    s.logger.Infof Sprintf msgFmt msgArgs s.env
      = (if InfoLevel ≤ s.logger.level
          then s.env.wrote s.logger.logs (outputText infoLabel (Sprintf msgFmt msgArgs))
          else s.env) ∧
    s.logger.Warn msg s.env
      = (if WarnLevel ≤ s.logger.level
          then s.env.wrote s.logger.logs (outputText warnLabel (fmt_Sprint msg))
          else s.env) ∧
    s.logger.Warnf Sprintf msgFmt msgArgs s.env
      = (if WarnLevel ≤ s.logger.level
          then s.env.wrote s.logger.logs (outputText warnLabel (Sprintf msgFmt msgArgs))
          else s.env) ∧
    s.logger.Error msg s.env
      = (if ErrorLevel ≤ s.logger.level
          then s.env.wrote s.logger.logs (outputText errorLabel (fmt_Sprint msg))
          else s.env) ∧
    s.logger.Errorf Sprintf msgFmt msgArgs s.env
      = (if ErrorLevel ≤ s.logger.level
          then s.env.wrote s.logger.logs (outputText errorLabel (Sprintf msgFmt msgArgs))
          else s.env) ∧
    ErrorLevel ≤ s.logger.level := by
  have hi := reachable_inv Sprintf s h
  have hE : ErrorLevel ≤ s.logger.level := Nat.zero_le _
  refine ⟨hi.nonempty, ?_, ?_, ?_, ?_, ?_, ?_, ?_, ?_, hE⟩
  · simp only [Logger.Debug, output_eq, hi.debug, decide_eq_true_eq, ge_iff_le]
  · simp only [Logger.Debugf, output_eq, hi.debug, decide_eq_true_eq, ge_iff_le]
  · simp only [Logger.Info, output_eq, hi.info, decide_eq_true_eq, ge_iff_le]
  · simp only [Logger.Infof, output_eq, hi.info, decide_eq_true_eq, ge_iff_le]
  · simp only [Logger.Warn, output_eq, hi.warn, decide_eq_true_eq, ge_iff_le]
  · simp only [Logger.Warnf, output_eq, hi.warn, decide_eq_true_eq, ge_iff_le]
  · simp only [Logger.Error, output_eq, if_pos hE]
  · simp only [Logger.Errorf, output_eq, if_pos hE]

/-- Witness of C1: a Logger made by New at WarnLevel with sink 7, then raised
to InfoLevel; Info writes its entry and Debug writes nothing. -/
theorem level_method_writes_iff_le_witness :
    Reachable sprintfVS state0 ∧
    (state0.logger.Info [.str "up ", .int 3] state0.env).printed = [(7, "I: up 3")] ∧
    (state0.logger.Debug [.str "up ", .int 3] state0.env).printed = [] :=
  have hr : Reachable sprintfVS state0 :=
    Reachable.step _ _ (Reachable.init WarnLevel 7 env0) trivial
  have h := level_method_writes_iff_le sprintfVS state0 hr [.str "up ", .int 3] "" []
  ⟨hr, (congrArg Env.printed h.2.2.2.1).trans (by decide),
       (congrArg Env.printed h.2.1).trans (by decide)⟩

/-- When no comparison of the writer of s with the writer of an attached sink
panics (as when the writers are of comparable dynamic types) and the
attached sinks are pairwise distinct objects wrapping pairwise distinct
writers, AddLogger(s) returns "duplicate logger added" if s is attached,
"duplicate os.Writer added" if s is not attached but an attached sink wraps
the writer of s, and otherwise returns nil and appends s at the end of the
sink list; it fails exactly when s is attached or shares its writer with an
attached sink, and a failing call leaves the Logger as it was. -/
theorem AddLogger_cases_of_comparable (logger : Logger) (env : Env) (s : LogRef)
    (hobj : logger.logs.Nodup) (hwr : (logger.logs.map env.writerOf).Nodup)
    (hcmp : WritersComparable env.writerOf logger.logs s) :
    (s ∈ logger.logs →
      logger.AddLogger s env = (logger, .returns (some "duplicate logger added"))) ∧
    (s ∉ logger.logs → (∃ l ∈ logger.logs, env.writerOf l = env.writerOf s) →
      logger.AddLogger s env = (logger, .returns (some "duplicate os.Writer added"))) ∧
    (s ∉ logger.logs → (∀ l ∈ logger.logs, env.writerOf l ≠ env.writerOf s) →
      logger.AddLogger s env
        = ({ logger with logs := logger.logs ++ [s] }, .returns none)) ∧
    ((logger.AddLogger s env).2 ≠ .returns none ↔
      (s ∈ logger.logs ∨ ∃ l ∈ logger.logs, env.writerOf l = env.writerOf s)) ∧
    (logger.AddLogger s env).2 ≠ .panics := by
  have _ := hobj
  have c1 : s ∈ logger.logs →
      logger.AddLogger s env = (logger, .returns (some "duplicate logger added")) := by
    intro hm
    simp [Logger.AddLogger, scan_of_mem _ _ _ hwr hcmp hm]
  have c2 : s ∉ logger.logs → (∃ l ∈ logger.logs, env.writerOf l = env.writerOf s) →
      logger.AddLogger s env = (logger, .returns (some "duplicate os.Writer added")) := by
    intro hm hw
    simp [Logger.AddLogger, scan_of_writer _ _ _ hcmp hm hw]
  have c3 : s ∉ logger.logs → (∀ l ∈ logger.logs, env.writerOf l ≠ env.writerOf s) →
      logger.AddLogger s env
        = ({ logger with logs := logger.logs ++ [s] }, .returns none) := by
    intro hm hw
    have := (scan_eq_none_iff env.writerOf s logger.logs).2
      ⟨hm, fun l hl => iface_eq_of_ne _ _ (hw l hl) (hcmp l hl)⟩
    simp [Logger.AddLogger, this]
  refine ⟨c1, c2, c3, ?_, ?_⟩
  · by_cases hm : s ∈ logger.logs
    · rw [c1 hm]; simp [hm]
    · by_cases hw : ∃ l ∈ logger.logs, env.writerOf l = env.writerOf s
      · rw [c2 hm hw]; simp [hw]
      · have hw2 : ∀ l ∈ logger.logs, env.writerOf l ≠ env.writerOf s := by
          intro l hl e
          exact hw ⟨l, hl, e⟩
        rw [c3 hm hw2]
        simp [hm, hw]
  · by_cases hm : s ∈ logger.logs
    · rw [c1 hm]; simp
    · by_cases hw : ∃ l ∈ logger.logs, env.writerOf l = env.writerOf s
      · rw [c2 hm hw]; simp
      · have hw2 : ∀ l ∈ logger.logs, env.writerOf l ≠ env.writerOf s := by
          intro l hl e
          exact hw ⟨l, hl, e⟩
        rw [c3 hm hw2]
        simp

/-- With the file-backed sinks 7 and 8 attached (files 107 and 108), no
comparison panics and adding sink 7 again is refused as a duplicate
logger. -/
theorem AddLogger_cases_of_comparable_witness :
    state1.logger.logs.Nodup ∧ (state1.logger.logs.map state1.env.writerOf).Nodup ∧
    WritersComparable state1.env.writerOf state1.logger.logs 7 ∧
    state1.logger.AddLogger 7 state1.env
      = (state1.logger, .returns (some "duplicate logger added")) :=
  have h1 : state1.logger.logs.Nodup := by decide
  have h2 : (state1.logger.logs.map state1.env.writerOf).Nodup := by decide
  have h3 : WritersComparable state1.env.writerOf state1.logger.logs 7 := by
    intro l hl
    have hlogs : state1.logger.logs = [7, 8] := by decide
    rw [hlogs] at hl
    have hl2 : l = 7 ∨ l = 8 := by simpa using hl
    rcases hl2 with rfl | rfl <;> decide
  ⟨h1, h2, h3, (AddLogger_cases_of_comparable state1.logger state1.env 7 h1 h2 h3).1
    (by decide)⟩

/-- C2: the code departs from the claim where writers are of an uncomparable
dynamic type.  The Logger New(ErrorLevel, l7), l7 wrapping the func-typed
writer W, has pairwise distinct sinks and writers.  AddWriter(W) makes a new
sink, not attached, wrapping the writer of l7: the claim has it return
"duplicate os.Writer added".  AddWriter(W2), W2 another func-typed writer,
makes a sink sharing no writer: the claim has it return nil and append the
sink.  In both calls the comparison of the two writers panics; nothing is
returned and the sink list stays [l7]. -/
theorem AddLogger_panics_on_uncomparable_writer :
    (New ErrorLevel 7 envFunc).logs = [7] ∧
    (New ErrorLevel 7 envFunc).logs.Nodup ∧
    ((New ErrorLevel 7 envFunc).logs.map (log_New 9 (funcWriter 0) envFunc).writerOf).Nodup ∧
    9 ∉ (New ErrorLevel 7 envFunc).logs ∧
    (∃ l ∈ (New ErrorLevel 7 envFunc).logs,
      (log_New 9 (funcWriter 0) envFunc).writerOf l
        = (log_New 9 (funcWriter 0) envFunc).writerOf 9) ∧
    (Logger.AddWriter (New ErrorLevel 7 envFunc) 9 (funcWriter 0) "" 0 envFunc).1
      = (New ErrorLevel 7 envFunc, .panics) ∧
    (Logger.AddWriter (New ErrorLevel 7 envFunc) 9 (funcWriter 0) "" 0 envFunc).1.2
      ≠ .returns (some "duplicate os.Writer added") ∧
    (Logger.AddLogger (New ErrorLevel 7 envFunc) 9 (log_New 9 (funcWriter 0) envFunc))
      = (New ErrorLevel 7 envFunc, .panics) ∧
    (∀ l ∈ (New ErrorLevel 7 envFunc).logs,
      (log_New 9 (funcWriter 5) envFunc).writerOf l
        ≠ (log_New 9 (funcWriter 5) envFunc).writerOf 9) ∧
    (Logger.AddWriter (New ErrorLevel 7 envFunc) 9 (funcWriter 5) "" 0 envFunc).1
      = (New ErrorLevel 7 envFunc, .panics) ∧
    (Logger.AddWriter (New ErrorLevel 7 envFunc) 9 (funcWriter 5) "" 0 envFunc).1.2
      ≠ .returns none ∧
    (Logger.call sprintfVS (.AddWriter 9 (funcWriter 0) "" 0)
        { logger := New ErrorLevel 7 envFunc, env := envFunc }).2 = .panic := by
  refine ⟨?_, ?_, ?_, ?_, ?_, ?_, ?_, ?_, ?_, ?_, ?_, ?_⟩ <;> decide

/-- C3: the string output hands to each sink is the label followed by the
lines of the message (split at line breaks) joined with a line break and
the continuation label "+  "; joining the lines of the message with line
breaks gives the message back; when the label holds no line break, the
lines of the string are the lines of the message, as many and in the same
order, the first behind the label and every later one behind "+  "; for
label "E: " and message "line1\nline2" the string is "E: line1\n+  line2". -/
theorem output_relabels_lines (logger : Logger) (label msg : String) (env : Env) :
    (logger.output label msg env).printed
      = env.printed ++ logger.logs.map
          (fun l => (l, label ++ String.intercalate ("\n" ++ "+  ") (strings_Split msg))) ∧
    String.mk (List.intercalate ['\n'] ((strings_Split msg).map String.data)) = msg ∧
    ('\n' ∉ label.data →
      strings_Split (label ++ String.intercalate ("\n" ++ "+  ") (strings_Split msg))
        = (strings_Split msg).enum.map
            (fun il => (if il.1 = 0 then label else "+  ") ++ il.2)) ∧
    (Logger.output { logger with logs := [0] } "E: " "line1\nline2" env).printed
      = env.printed ++ [(0, "E: line1\n+  line2")] := by
  refine ⟨?_, ?_, ?_, ?_⟩
  · rw [output_eq, outputText_eq]; rfl
  · have : (strings_Split msg).map String.data = splitNL msg.data := by
      simp [strings_Split, Function.comp_def]
    rw [this, splitNL_join]
  · exact strings_Split_relabelled label msg
  · rw [output_eq]
    have : outputText "E: " "line1\nline2" = "E: line1\n+  line2" := by decide
    rw [this]; rfl

/-- Witness of C3: a three-line message behind the label "W: ". -/
theorem output_relabels_lines_witness :
    '\n' ∉ "W: ".data ∧
    strings_Split ("W: " ++ String.intercalate ("\n" ++ "+  ") (strings_Split "a\n\nb"))
      = ["W: a", "+  ", "+  b"] :=
  have hl : '\n' ∉ "W: ".data := by decide
  ⟨hl, ((output_relabels_lines state0.logger "W: " "a\n\nb" env0).2.2.1 hl).trans (by decide)⟩

/-- C4: in a reachable state with sinks s1, ..., sN, a logging call whose level
is at most the threshold makes exactly N writes, one to each attached sink
in attachment order, all carrying the same formatted string, and leaves the
threshold, the booleans and the sink list as they were. -/
theorem logging_call_fans_out (Sprintf : String → List Arg → String) (s : State)
    (h : Reachable Sprintf s) (msg : List Arg) (msgFmt : String) (msgArgs : List Arg) :
    (DebugLevel ≤ s.logger.level →
      FansOut s (Logger.call Sprintf (.Debug msg) s).1
        (outputText debugLabel (fmt_Sprint msg)) ∧
      FansOut s (Logger.call Sprintf (.Debugf msgFmt msgArgs) s).1
        (outputText debugLabel (Sprintf msgFmt msgArgs))) ∧
    (InfoLevel ≤ s.logger.level →
      FansOut s (Logger.call Sprintf (.Info msg) s).1
        (outputText infoLabel (fmt_Sprint msg)) ∧
      FansOut s (Logger.call Sprintf (.Infof msgFmt msgArgs) s).1
        (outputText infoLabel (Sprintf msgFmt msgArgs))) ∧
    (WarnLevel ≤ s.logger.level →
      FansOut s (Logger.call Sprintf (.Warn msg) s).1
        (outputText warnLabel (fmt_Sprint msg)) ∧
      FansOut s (Logger.call Sprintf (.Warnf msgFmt msgArgs) s).1
        (outputText warnLabel (Sprintf msgFmt msgArgs))) ∧
    (ErrorLevel ≤ s.logger.level →
      FansOut s (Logger.call Sprintf (.Error msg) s).1
        (outputText errorLabel (fmt_Sprint msg)) ∧
      FansOut s (Logger.call Sprintf (.Errorf msgFmt msgArgs) s).1
        (outputText errorLabel (Sprintf msgFmt msgArgs))) := by
  have hi := reachable_inv Sprintf s h
  have key : ∀ r, FansOut s { s with env := s.env.wrote s.logger.logs r } r := by
    intro r
    simp [FansOut, Env.wrote]
  refine ⟨?_, ?_, ?_, ?_⟩
  · intro hl
    have hb : s.logger.IsDebug = true := by rw [hi.debug]; simpa using hl
    constructor
    · simpa [Logger.call, Logger.Debug, hb, output_eq] using key _
    · simpa [Logger.call, Logger.Debugf, hb, output_eq] using key _
  · intro hl
    have hb : s.logger.IsInfo = true := by rw [hi.info]; simpa using hl
    constructor
    · simpa [Logger.call, Logger.Info, hb, output_eq] using key _
    · simpa [Logger.call, Logger.Infof, hb, output_eq] using key _
  · intro hl
    have hb : s.logger.IsWarn = true := by rw [hi.warn]; simpa using hl
    constructor
    · simpa [Logger.call, Logger.Warn, hb, output_eq] using key _
    · simpa [Logger.call, Logger.Warnf, hb, output_eq] using key _
  · intro _
    constructor
    · simpa [Logger.call, Logger.Error, output_eq] using key _
    · simpa [Logger.call, Logger.Errorf, output_eq] using key _

/-- Witness of C4: with sinks 7 and 8 attached at DebugLevel, Warnf writes the
same string to sink 7 and then to sink 8. -/
theorem logging_call_fans_out_witness :
    Reachable sprintfVS state1 ∧ WarnLevel ≤ state1.logger.level ∧
    (Logger.call sprintfVS (.Warnf "disk %v%%\nfull" [.int 93]) state1).1.env.printed
      = [(7, "W: disk 93%\n+  full"), (8, "W: disk 93%\n+  full")] :=
  have hr : Reachable sprintfVS state1 :=
    Reachable.step _ _ (Reachable.init DebugLevel 7 env0) trivial
  have hl : WarnLevel ≤ state1.logger.level := by decide
  ⟨hr, hl,
    ((logging_call_fans_out sprintfVS state1 hr [] "disk %v%%\nfull" [.int 93]).2.2.1
      hl).2.2.1.trans (by decide)⟩

/-- C5: in every state reachable from New by SetLevel, AddLogger, AddWriter
(whose new sink object is none of the attached ones), logging and Close
calls, no two attached sinks are the same object and no two wrap the same
writer. -/
theorem reachable_sinks_distinct (Sprintf : String → List Arg → String) (s : State)
    (h : Reachable Sprintf s) :
    s.logger.logs.Nodup ∧ (s.logger.logs.map s.env.writerOf).Nodup ∧
    ∀ i j : Fin s.logger.logs.length, i ≠ j →
      s.logger.logs.get i ≠ s.logger.logs.get j ∧
      s.env.writerOf (s.logger.logs.get i) ≠ s.env.writerOf (s.logger.logs.get j) := by
  have hi := reachable_inv Sprintf s h
  have hobj : s.logger.logs.Nodup := List.Nodup.of_map _ hi.writers
  refine ⟨hobj, hi.writers, ?_⟩
  intro i j hij
  constructor
  · intro e
    exact hij (List.nodup_iff_injective_get.1 hobj e)
  · intro e
    have hinj := List.nodup_iff_injective_get.1 hi.writers
    have hlen : (s.logger.logs.map s.env.writerOf).length = s.logger.logs.length :=
      List.length_map _ _
    have := @hinj ⟨i.1, by rw [hlen]; exact i.2⟩ ⟨j.1, by rw [hlen]; exact j.2⟩
      (by simpa using e)
    exact hij (Fin.ext (by simpa using this))

/-- Witness of C5: after New with sink 7, AddWriter of writer 107 (which sink 7
wraps) is refused and AddLogger of sink 8 succeeds; the sinks are 7 and 8. -/
theorem reachable_sinks_distinct_witness :
    Reachable sprintfVS
      (Logger.call sprintfVS (.AddLogger 8)
        (Logger.call sprintfVS (.AddWriter 9 (fileWriter 107) "" 0)
          { logger := New ErrorLevel 7 env0, env := env0 }).1).1 ∧
    (Logger.call sprintfVS (.AddLogger 8)
        (Logger.call sprintfVS (.AddWriter 9 (fileWriter 107) "" 0)
          { logger := New ErrorLevel 7 env0, env := env0 }).1).1.logger.logs = [7, 8] ∧
    [7, 8].Nodup :=
  have hr : Reachable sprintfVS
      (Logger.call sprintfVS (.AddLogger 8)
        (Logger.call sprintfVS (.AddWriter 9 (fileWriter 107) "" 0)
          { logger := New ErrorLevel 7 env0, env := env0 }).1).1 :=
    Reachable.step _ _
      (Reachable.step _ _ (Reachable.init ErrorLevel 7 env0)
        (show (9 : LogRef) ∉ [7] by decide)) trivial
  ⟨hr, by decide, (reachable_sinks_distinct sprintfVS _ hr).1⟩

/-- C6: in every reachable state the cached booleans agree with the threshold:
IsDebug = (level >= DebugLevel), IsInfo = (level >= InfoLevel), IsWarn =
(level >= WarnLevel); hence IsDebug implies IsInfo and IsInfo implies
IsWarn. -/
theorem reachable_booleans_agree (Sprintf : String → List Arg → String) (s : State)
    (h : Reachable Sprintf s) :
    s.logger.IsDebug = decide (s.logger.level ≥ DebugLevel) ∧
    s.logger.IsInfo = decide (s.logger.level ≥ InfoLevel) ∧
    s.logger.IsWarn = decide (s.logger.level ≥ WarnLevel) ∧
    (s.logger.IsDebug = true → s.logger.IsInfo = true) ∧
    (s.logger.IsInfo = true → s.logger.IsWarn = true) := by
  have hi := reachable_inv Sprintf s h
  refine ⟨hi.debug, hi.info, hi.warn, ?_, ?_⟩
  · rw [hi.debug, hi.info]
    simp only [decide_eq_true_eq]
    exact fun hd => Nat.le_trans (by decide : InfoLevel ≤ DebugLevel) hd
  · rw [hi.info, hi.warn]
    simp only [decide_eq_true_eq]
    exact fun hd => Nat.le_trans (by decide : WarnLevel ≤ InfoLevel) hd

/-- Witness of C6: after New at WarnLevel and SetLevel(InfoLevel), IsInfo and
IsWarn are set and IsDebug is not. -/
theorem reachable_booleans_agree_witness :
    Reachable sprintfVS state0 ∧
    state0.logger.IsDebug = false ∧ state0.logger.IsInfo = true ∧
    state0.logger.IsWarn = true :=
  have hr : Reachable sprintfVS state0 :=
    Reachable.step _ _ (Reachable.init WarnLevel 7 env0) trivial
  have h := reachable_booleans_agree sprintfVS state0 hr
  ⟨hr, h.1.trans (by decide), h.2.1.trans (by decide), h.2.2.1.trans (by decide)⟩

/-- C7: for every Logger state and level n, SetLevel(n) returns the threshold
the Logger had before, leaves the Logger with threshold n, writes nothing
(the environment is the same) and leaves the sink list the same. -/
theorem SetLevel_returns_previous (Sprintf : String → List Arg → String) (s : State)
    (n : Level) :
    (Logger.call Sprintf (.SetLevel n) s).2 = .level s.logger.level ∧
    (Logger.call Sprintf (.SetLevel n) s).1.logger.level = n ∧
    (Logger.call Sprintf (.SetLevel n) s).1.env.printed = s.env.printed ∧
    (Logger.call Sprintf (.SetLevel n) s).1.env = s.env ∧
    (Logger.call Sprintf (.SetLevel n) s).1.logger.logs = s.logger.logs ∧
    (s.logger.SetLevel n).2 = s.logger.level := by
  have hret : (s.logger.SetLevel n).2 = s.logger.level := rfl
  have hlvl : (s.logger.SetLevel n).1.level = n := rfl
  have hlogs : (s.logger.SetLevel n).1.logs = s.logger.logs := rfl
  refine ⟨?_, ?_, ?_, ?_, ?_, hret⟩
  · simp only [Logger.call, hret]
  · simpa only [Logger.call] using hlvl
  · simp only [Logger.call]
  · simp only [Logger.call]
  · simpa only [Logger.call] using hlogs

/-- C8, as stated, fails: with context arguments 1 and 2 and a closer failing
with "boom", Close logs "E: Close 1 2 caused: boom", which is not the text
built from the concatenated arguments, "E: Close 12 caused: boom". -/
theorem Close_concatenation_counterexample :
    (Logger.Close (New ErrorLevel 7 env0) failingCloser [.int 1, .int 2] env0).printed
      = [(7, "E: Close 1 2 caused: boom")] ∧
    (Logger.Close (New ErrorLevel 7 env0) failingCloser [.int 1, .int 2] env0).printed
      ≠ env0.printed ++ (New ErrorLevel 7 env0).logs.map
          (fun l => (l, outputText errorLabel
            ("Close" ++ (" " ++ concatText [.int 1, .int 2]) ++ " caused: " ++ "boom"))) := by
  constructor <;> decide

/-- C8, amended: Close(c, args...) calls c.Close exactly once; if that returns
no error nothing is logged; if it returns error e, one Error-level message
is written to every sink, whatever the threshold, whose text is "Close" ++
ctx ++ " caused: " ++ e, where ctx is empty when args is empty and otherwise
a space followed by the textual forms of the args concatenated with a space
between two consecutive args exactly when neither is a string (plainly
concatenated when no two consecutive args are both non-strings); so Close(c)
logs the text "Close caused: e" and Close(c, "msg1", " msg2") the text
"Close msg1 msg2 caused: e"; two calls on a closer failing both times log
two such messages. -/
theorem Close_logs_failure (logger : Logger) (closable : Closer) (args : List Arg)
    (env : Env) :
    (logger.Close closable args env).closeCalls = env.closeCalls ++ [closable.ref] ∧
    (closable.result (env.closeCalls.count closable.ref) = none →
      logger.Close closable args env
        = { env with closeCalls := env.closeCalls ++ [closable.ref] }) ∧
    (∀ e, closable.result (env.closeCalls.count closable.ref) = some e →
      logger.Close closable args env
        = Env.wrote { env with closeCalls := env.closeCalls ++ [closable.ref] } logger.logs
            (outputText errorLabel
              ("Close" ++ (if args = [] then "" else " " ++ concatSpaced args)
                ++ " caused: " ++ e))) ∧
    (NoAdjacentNonStrings args → concatSpaced args = concatText args) ∧
    (∀ e, closable.result (env.closeCalls.count closable.ref) = some e →
      (logger.Close closable [] env).printed
        = env.printed ++ logger.logs.map
            (fun l => (l, outputText errorLabel ("Close caused: " ++ e))) ∧
      (logger.Close closable [.str "msg1", .str " msg2"] env).printed
        = env.printed ++ logger.logs.map
            (fun l => (l, outputText errorLabel ("Close msg1 msg2 caused: " ++ e)))) ∧
    (∀ e1 e2, closable.result (env.closeCalls.count closable.ref) = some e1 →
      closable.result (env.closeCalls.count closable.ref + 1) = some e2 →
      (logger.Close closable args (logger.Close closable args env)).printed
        = env.printed
          ++ logger.logs.map (fun l => (l, outputText errorLabel
              ("Close" ++ (if args = [] then "" else " " ++ concatSpaced args)
                ++ " caused: " ++ e1)))
          ++ logger.logs.map (fun l => (l, outputText errorLabel
              ("Close" ++ (if args = [] then "" else " " ++ concatSpaced args)
                ++ " caused: " ++ e2)))) := by
  refine ⟨?_, ?_, ?_, concatSpaced_eq_concatText args, ?_, ?_⟩
  · rw [Close_eq]
    cases closable.result (List.count closable.ref env.closeCalls) <;> simp [Env.wrote]
  · intro h
    rw [Close_eq, h]
  · intro e h
    rw [Close_eq, h]
  · intro e h
    constructor
    · rw [Close_eq, h]
      simp only [Env.wrote, if_true]
      rfl
    · rw [Close_eq, h]
      have h1 : "Close" ++ (" " ++ concatSpaced [.str "msg1", .str " msg2"]) ++ " caused: " ++ e
          = "Close msg1 msg2 caused: " ++ e := by
        apply String.ext
        simp [String.data_append, concatSpaced, Arg.isString, Arg.text]
      simp only [Env.wrote, reduceCtorEq, if_false, h1]
  · intro e1 e2 h1 h2
    rw [Close_eq logger closable args env, h1]
    rw [Close_eq]
    have hc : List.count closable.ref
        (Env.wrote { env with closeCalls := env.closeCalls ++ [closable.ref] } logger.logs
          (outputText errorLabel
            ("Close" ++ (if args = [] then "" else " " ++ concatSpaced args)
              ++ " caused: " ++ e1))).closeCalls
        = List.count closable.ref env.closeCalls + 1 := by
      simp [Env.wrote, List.count_append]
    simp only [hc, h2]
    simp [Env.wrote]

/-- Witness of C8: a file-like closer in `env0` closes without error the first
time (nothing is logged) and fails the second time, which logs one
message with the context "ctx 1 2". -/
theorem Close_logs_failure_witness :
    fileCloser.result (env0.closeCalls.count fileCloser.ref) = none ∧
    (Logger.Close state0.logger fileCloser [.str "ctx", .int 1, .int 2] env0).printed = [] ∧
    (Logger.Close state0.logger fileCloser [.str "ctx", .int 1, .int 2]
        (Logger.Close state0.logger fileCloser [.str "ctx", .int 1, .int 2] env0)).printed
      = [(7, "E: Close ctx1 2 caused: already closed")] ∧
    NoAdjacentNonStrings [.str "a", .int 1, .str "b"] ∧
    concatSpaced [.str "a", .int 1, .str "b"] = "a1b" :=
  have h0 : fileCloser.result (env0.closeCalls.count fileCloser.ref) = none := by decide
  have hn : NoAdjacentNonStrings [.str "a", .int 1, .str "b"] := by
    simp [NoAdjacentNonStrings, Arg.isString]
  ⟨h0,
   (congrArg Env.printed
     ((Close_logs_failure state0.logger fileCloser [.str "ctx", .int 1, .int 2] env0).2.1
       h0)).trans rfl,
   by decide,
   hn,
   ((Close_logs_failure state0.logger fileCloser [.str "a", .int 1, .str "b"]
      env0).2.2.2.1 hn).trans (by decide)⟩

/-- C9: in every state reachable from package initialisation through the
package-level functions, the package variables IsWarn, IsInfo and IsDebug
equal the fields of the standard logger, and every package-level function
returns what the method of the same name returns on the standard logger and
leaves the standard logger and the environment (sink writes, Close calls)
as that method does; after initialisation the standard logger is at
ErrorLevel with one sink and the three variables are false. -/
theorem package_functions_delegate (Sprintf : String → List Arg → String) (p : Pkg)
    (h : Pkg.Reachable Sprintf p) (c : Call) :
    p.IsWarn = p.std.IsWarn ∧ p.IsInfo = p.std.IsInfo ∧ p.IsDebug = p.std.IsDebug ∧
    (Pkg.call Sprintf c p).2
      = (Logger.call Sprintf c { logger := p.std, env := p.env }).2 ∧
    (Pkg.call Sprintf c p).1.std
      = (Logger.call Sprintf c { logger := p.std, env := p.env }).1.logger ∧
    (Pkg.call Sprintf c p).1.env
      = (Logger.call Sprintf c { logger := p.std, env := p.env }).1.env ∧
    (Pkg.call Sprintf c p).1.IsWarn = (Pkg.call Sprintf c p).1.std.IsWarn ∧
    (Pkg.call Sprintf c p).1.IsInfo = (Pkg.call Sprintf c p).1.std.IsInfo ∧
    (Pkg.call Sprintf c p).1.IsDebug = (Pkg.call Sprintf c p).1.std.IsDebug ∧
    (∀ logDefault env,
      (Pkg.init logDefault env).std.level = ErrorLevel ∧
      (Pkg.init logDefault env).std.logs = [logDefault] ∧
      (Pkg.init logDefault env).IsWarn = false ∧
      (Pkg.init logDefault env).IsInfo = false ∧
      (Pkg.init logDefault env).IsDebug = false) := by
  have hm := pkg_reachable_mirror Sprintf p h
  have hm2 := mirror_call Sprintf c p hm
  obtain ⟨h1, h2, h3⟩ := hm
  refine ⟨h1, h2, h3, ?_, ?_, ?_, hm2.1, hm2.2.1, hm2.2.2, ?_⟩
  · cases c <;> rfl
  · cases c with
    | Debug msg => simp only [Pkg.call, Debug, Logger.call]; split <;> rfl
    | Debugf f a => simp only [Pkg.call, Debugf, Logger.call]; split <;> rfl
    | Info msg => simp only [Pkg.call, Info, Logger.call]; split <;> rfl
    | Infof f a => simp only [Pkg.call, Infof, Logger.call]; split <;> rfl
    | Warn msg => simp only [Pkg.call, Warn, Logger.call]; split <;> rfl
    | Warnf f a => simp only [Pkg.call, Warnf, Logger.call]; split <;> rfl
    | _ => rfl
  · cases c with
    | Debug msg =>
      simp only [Pkg.call, Debug, Logger.call, Logger.Debug, h3]; split <;> rfl
    | Debugf f a =>
      simp only [Pkg.call, Debugf, Logger.call, Logger.Debugf, h3]; split <;> rfl
    | Info msg =>
      simp only [Pkg.call, Info, Logger.call, Logger.Info, h2]; split <;> rfl
    | Infof f a =>
      simp only [Pkg.call, Infof, Logger.call, Logger.Infof, h2]; split <;> rfl
    | Warn msg =>
      simp only [Pkg.call, Warn, Logger.call, Logger.Warn, h1]; split <;> rfl
    | Warnf f a =>
      simp only [Pkg.call, Warnf, Logger.call, Logger.Warnf, h1]; split <;> rfl
    | _ => rfl
  · intro l env
    simp [Pkg.init, New, Logger.zero, Logger.SetLevel, Logger.AddLogger, AddLogger.scan]

/-- Witness of C9: after initialisation and SetLevel(WarnLevel) the package
function Warn writes what the method Warn of the standard logger writes. -/
theorem package_functions_delegate_witness :
    Pkg.Reachable sprintfVS (Pkg.call sprintfVS (.SetLevel WarnLevel) (Pkg.init 0 env0)).1 ∧
    (Pkg.call sprintfVS (.Warn [.str "low disk"])
        (Pkg.call sprintfVS (.SetLevel WarnLevel) (Pkg.init 0 env0)).1).1.env.printed
      = [(0, "W: low disk")] :=
  have hr : Pkg.Reachable sprintfVS
      (Pkg.call sprintfVS (.SetLevel WarnLevel) (Pkg.init 0 env0)).1 :=
    Pkg.Reachable.step _ _ (Pkg.Reachable.init 0 env0) trivial
  ⟨hr,
   (congrArg Env.printed
     (package_functions_delegate sprintfVS _ hr (.Warn [.str "low disk"])).2.2.2.2.2.1).trans
     (by decide)⟩

/-- C10, as stated, fails: Error(1, 2) emits the text "1 2" behind the label,
not the concatenation "12" of the textual forms. -/
theorem Error_concatenation_counterexample :
    (Logger.Error (New ErrorLevel 7 env0) [.int 1, .int 2] env0).printed
      = [(7, "E: 1 2")] ∧
    concatText [.int 1, .int 2] = "12" ∧
    (Logger.Error (New ErrorLevel 7 env0) [.int 1, .int 2] env0).printed
      ≠ env0.printed ++ (New ErrorLevel 7 env0).logs.map
          (fun l => (l, outputText errorLabel (concatText [.int 1, .int 2]))) := by
  refine ⟨?_, ?_, ?_⟩ <;> decide

/-- C10, amended: the message text Debug, Info, Warn and Error emit behind the
label is the concatenation of the textual forms of the arguments with a
single space inserted between two consecutive arguments exactly when
neither of them is a string; no separator is inserted when of every two
consecutive arguments at least one is a string, as when all are strings. -/
theorem unformatted_text_is_spaced_concat (logger : Logger) (msg : List Arg) (env : Env) :
    logger.Error msg env
      = env.wrote logger.logs (outputText errorLabel (concatSpaced msg)) ∧
    (logger.IsWarn = true →
      logger.Warn msg env
        = env.wrote logger.logs (outputText warnLabel (concatSpaced msg))) ∧
    (logger.IsInfo = true →
      logger.Info msg env
        = env.wrote logger.logs (outputText infoLabel (concatSpaced msg))) ∧
    (logger.IsDebug = true →
      logger.Debug msg env
        = env.wrote logger.logs (outputText debugLabel (concatSpaced msg))) ∧
    (NoAdjacentNonStrings msg → concatSpaced msg = concatText msg) ∧
    ((∀ a ∈ msg, a.isString = true) → concatSpaced msg = concatText msg) := by
  refine ⟨?_, ?_, ?_, ?_, concatSpaced_eq_concatText msg,
    fun h => concatSpaced_eq_concatText msg (all_strings_noAdjacent msg h)⟩
  · simp only [Logger.Error, output_eq, fmt_Sprint_eq]
  · intro h; simp only [Logger.Warn, h, if_true, output_eq, fmt_Sprint_eq]
  · intro h; simp only [Logger.Info, h, if_true, output_eq, fmt_Sprint_eq]
  · intro h; simp only [Logger.Debug, h, if_true, output_eq, fmt_Sprint_eq]

/-- Witness of C10: the arguments of the test suite, all strings, are emitted
concatenated; at DebugLevel the Debug method writes them behind "D: ". -/
theorem unformatted_text_is_spaced_concat_witness :
    state1.logger.IsDebug = true ∧
    (∀ a ∈ [Arg.str "4-", .str "WE SHOULD ", .str "SEE"], a.isString = true) ∧
    (Logger.Debug state1.logger [.str "4-", .str "WE SHOULD ", .str "SEE"]
        state1.env).printed
      = [(7, "D: 4-WE SHOULD SEE"), (8, "D: 4-WE SHOULD SEE")] ∧
    concatSpaced [.str "4-", .str "WE SHOULD ", .str "SEE"] = "4-WE SHOULD SEE" :=
  have hd : state1.logger.IsDebug = true := by decide
  have hs : ∀ a ∈ [Arg.str "4-", .str "WE SHOULD ", .str "SEE"], a.isString = true := by
    decide
  have h := unformatted_text_is_spaced_concat state1.logger
    [.str "4-", .str "WE SHOULD ", .str "SEE"] state1.env
  ⟨hd, hs, (congrArg Env.printed (h.2.2.2.1 hd)).trans (by decide),
   (h.2.2.2.2.2 hs).trans (by decide)⟩

/-- C11: in every state reachable from New, after old := SetLevel(T2) followed
by SetLevel(old) the threshold, the three booleans and the sink list are
what they were before the two calls, the whole state is the same and so
every later call (in particular every logging call) behaves as before; and
the Logger that SetLevel(T) leaves does not depend on the thresholds set
earlier. -/
theorem SetLevel_restores (Sprintf : String → List Arg → String) (s : State)
    (h : Reachable Sprintf s) (T2 : Level) :
    (s.logger.SetLevel T2).2 = s.logger.level ∧
    ((s.logger.SetLevel T2).1.SetLevel (s.logger.SetLevel T2).2).1 = s.logger ∧
    ((s.logger.SetLevel T2).1.SetLevel (s.logger.SetLevel T2).2).1.level = s.logger.level ∧
    ((s.logger.SetLevel T2).1.SetLevel (s.logger.SetLevel T2).2).1.IsDebug
      = s.logger.IsDebug ∧
    ((s.logger.SetLevel T2).1.SetLevel (s.logger.SetLevel T2).2).1.IsInfo
      = s.logger.IsInfo ∧
    ((s.logger.SetLevel T2).1.SetLevel (s.logger.SetLevel T2).2).1.IsWarn
      = s.logger.IsWarn ∧
    ((s.logger.SetLevel T2).1.SetLevel (s.logger.SetLevel T2).2).1.logs = s.logger.logs ∧
    (Logger.call Sprintf (.SetLevel s.logger.level)
        (Logger.call Sprintf (.SetLevel T2) s).1).1 = s ∧
    (∀ c : Call,
      Logger.call Sprintf c
          (Logger.call Sprintf (.SetLevel s.logger.level)
            (Logger.call Sprintf (.SetLevel T2) s).1).1
        = Logger.call Sprintf c s) ∧
    (∀ (earlier : List Level) (T : Level),
      ((earlier.foldl (fun l a => (l.SetLevel a).1) s.logger).SetLevel T).1
        = (s.logger.SetLevel T).1) := by
  have hi := reachable_inv Sprintf s h
  have hret : (s.logger.SetLevel T2).2 = s.logger.level := rfl
  have hback : ((s.logger.SetLevel T2).1.SetLevel (s.logger.SetLevel T2).2).1 = s.logger := by
    rw [hret, SetLevel_SetLevel]
    exact SetLevel_same s.logger s.env hi
  have hstate : (Logger.call Sprintf (.SetLevel s.logger.level)
      (Logger.call Sprintf (.SetLevel T2) s).1).1 = s := by
    have h1 : (Logger.call Sprintf (.SetLevel s.logger.level)
        (Logger.call Sprintf (.SetLevel T2) s).1).1
        = { logger := ((s.logger.SetLevel T2).1.SetLevel s.logger.level).1, env := s.env } :=
      rfl
    rw [h1, ← hret, hback]
  refine ⟨hret, hback, ?_, ?_, ?_, ?_, ?_, hstate, ?_, ?_⟩
  · rw [hback]
  · rw [hback]
  · rw [hback]
  · rw [hback]
  · rw [hback]
  · intro c
    rw [hstate]
  · intro earlier T
    exact SetLevel_after_earlier s.logger earlier T

/-- Witness of C11: from New at WarnLevel raised to InfoLevel, SetLevel(DebugLevel)
returns InfoLevel and turns IsDebug on; SetLevel of the returned value
brings the Logger back. -/
theorem SetLevel_restores_witness :
    Reachable sprintfVS state0 ∧
    (state0.logger.SetLevel DebugLevel).2 = InfoLevel ∧
    (state0.logger.SetLevel DebugLevel).1.IsDebug = true ∧
    ((state0.logger.SetLevel DebugLevel).1.SetLevel (state0.logger.SetLevel DebugLevel).2).1
      = state0.logger ∧
    state0.logger.IsDebug = false :=
  have hr : Reachable sprintfVS state0 :=
    Reachable.step _ _ (Reachable.init WarnLevel 7 env0) trivial
  have h := SetLevel_restores sprintfVS state0 hr DebugLevel
  ⟨hr, h.1.trans (by decide), by decide, h.2.1, by decide⟩

/-- C12, as stated, fails: for the context string "" (no format verbs) Close
logs "E: Close  caused: boom" and Closef logs "E: Close caused: boom"; and
for the context arguments 1 and 2, whose concatenation is "12", Close logs
"E: Close 1 2 caused: boom" while Closef with the format "12" logs
"E: Close 12 caused: boom". -/
theorem Close_Closef_counterexample :
    ('%' ∉ "".data ∧ sprintfVS "" [] = "" ∧
      (Logger.Close (New ErrorLevel 7 env0) failingCloser [.str ""] env0).printed
        = [(7, "E: Close  caused: boom")] ∧
      (Logger.Closef sprintfVS (New ErrorLevel 7 env0) failingCloser "" [] env0).printed
        = [(7, "E: Close caused: boom")] ∧
      (Logger.Close (New ErrorLevel 7 env0) failingCloser [.str ""] env0).printed
        ≠ (Logger.Closef sprintfVS (New ErrorLevel 7 env0) failingCloser "" [] env0).printed) ∧
    (concatText [.int 1, .int 2] = "12" ∧ sprintfVS "12" [] = "12" ∧
      (Logger.Close (New ErrorLevel 7 env0) failingCloser [.int 1, .int 2] env0).printed
        = [(7, "E: Close 1 2 caused: boom")] ∧
      (Logger.Closef sprintfVS (New ErrorLevel 7 env0) failingCloser "12" [] env0).printed
        = [(7, "E: Close 12 caused: boom")] ∧
      (Logger.Close (New ErrorLevel 7 env0) failingCloser [.int 1, .int 2] env0).printed
        ≠ (Logger.Closef sprintfVS (New ErrorLevel 7 env0) failingCloser "12" []
            env0).printed) := by
  refine ⟨⟨?_, ?_, ?_, ?_, ?_⟩, ⟨?_, ?_, ?_, ?_, ?_⟩⟩ <;> decide

/-- C12, amended: for a closer whose Close fails with error e, context arguments
whose fmt.Sprint rendering (textual forms concatenated, with a space between
two consecutive non-strings) is s, and a format and arguments that render to
s, where s is not empty or there are no context arguments, Close and Closef
leave the same state and emit the same Error-level message, of text
"Close" ++ ctx ++ " caused: " ++ e with ctx empty for empty s and a space
followed by s otherwise; so for every non-empty context string s that
renders as itself (as every s without a format verb does), Close(c, s) and
Closef(c, s) emit the same message; Close(f, "msg1", " msg2"),
Closef(f, "msg1 msg2") and Closef(f, "msg1 %s", "msg2") all emit the text
"Close msg1 msg2 caused: e". -/
theorem Close_Closef_same_message (Sprintf : String → List Arg → String)
    (logger : Logger) (closable : Closer) (env : Env) (e : String)
    (args : List Arg) (fmtMsg : String) (fmtArgs : List Arg) (s : String)
    (he : closable.result (env.closeCalls.count closable.ref) = some e)
    (ha : concatSpaced args = s) (hf : Sprintf fmtMsg fmtArgs = s)
    (hs : s ≠ "" ∨ args = []) :
    logger.Close closable args env = logger.Closef Sprintf closable fmtMsg fmtArgs env ∧
    logger.Close closable args env
      = Env.wrote { env with closeCalls := env.closeCalls ++ [closable.ref] } logger.logs
          (outputText errorLabel
            ("Close" ++ (if s = "" then "" else " " ++ s) ++ " caused: " ++ e)) ∧
    (∀ t : String, t ≠ "" → Sprintf t [] = t →
      logger.Close closable [.str t] env = logger.Closef Sprintf closable t [] env) ∧
    (∀ t : String, t ≠ "" → '%' ∉ t.data →
      sprintfVS t [] = t ∧
      logger.Close closable [.str t] env = logger.Closef sprintfVS closable t [] env) ∧
    (logger.Close closable [.str "msg1", .str " msg2"] env).printed
      = env.printed ++ logger.logs.map
          (fun l => (l, outputText errorLabel ("Close msg1 msg2 caused: " ++ e))) ∧
    (logger.Closef sprintfVS closable "msg1 msg2" [] env).printed
      = env.printed ++ logger.logs.map
          (fun l => (l, outputText errorLabel ("Close msg1 msg2 caused: " ++ e))) ∧
    (logger.Closef sprintfVS closable "msg1 %s" [.str "msg2"] env).printed
      = env.printed ++ logger.logs.map
          (fun l => (l, outputText errorLabel ("Close msg1 msg2 caused: " ++ e))) := by
  have hctx : (if args = [] then "" else " " ++ concatSpaced args)
      = (if s = "" then "" else " " ++ s) := by
    by_cases h0 : s = ""
    · have hargs : args = [] := by
        rcases hs with h1 | h1
        · exact absurd h0 h1
        · exact h1
      rw [if_pos hargs, if_pos h0]
    · have hargs : args ≠ [] := concatSpaced_nil_iff_of_ne args (by rw [ha]; exact h0)
      rw [if_neg hargs, if_neg h0, ha]
  have hClose : logger.Close closable args env
      = Env.wrote { env with closeCalls := env.closeCalls ++ [closable.ref] } logger.logs
          (outputText errorLabel
            ("Close" ++ (if s = "" then "" else " " ++ s) ++ " caused: " ++ e)) := by
    rw [Close_eq, he]
    simp only [hctx]
  have hsame : ∀ (S : String → List Arg → String) (t : String), t ≠ "" → S t [] = t →
      logger.Close closable [.str t] env = logger.Closef S closable t [] env := by
    intro S t ht hS
    rw [Close_eq, Closef_eq, he, hS]
    simp only [reduceCtorEq, if_false, if_neg ht, concatSpaced, Arg.text]
  have htxt : "Close" ++ (" " ++ "msg1 msg2") ++ " caused: " ++ e
      = "Close msg1 msg2 caused: " ++ e := by
    apply String.ext
    simp [String.data_append]
  refine ⟨?_, hClose, ?_, ?_, ?_, ?_, ?_⟩
  · rw [hClose, Closef_eq, he, hf]
  · intro t ht hS
    exact hsame Sprintf t ht hS
  · intro t ht hp
    exact ⟨sprintfVS_plain t hp, hsame sprintfVS t ht (sprintfVS_plain t hp)⟩
  · rw [Close_eq, he]
    have h1 : concatSpaced [.str "msg1", .str " msg2"] = "msg1 msg2" := by decide
    simp only [reduceCtorEq, if_false, h1, htxt, Env.wrote]
  · rw [Closef_eq, he]
    have h1 : sprintfVS "msg1 msg2" [] = "msg1 msg2" := by decide
    have h2 : ("msg1 msg2" : String) ≠ "" := by decide
    simp only [h1, if_neg h2, htxt, Env.wrote]
  · rw [Closef_eq, he]
    have h1 : sprintfVS "msg1 %s" [.str "msg2"] = "msg1 msg2" := by decide
    have h2 : ("msg1 msg2" : String) ≠ "" := by decide
    simp only [h1, if_neg h2, htxt, Env.wrote]

/-- Witness of C12: with a closer failing with "boom", the context arguments
"disk ", 3 and the format "disk %v" with operand 3 both render to "disk 3";
Close and Closef write the same message. -/
theorem Close_Closef_same_message_witness :
    failingCloser.result (env0.closeCalls.count failingCloser.ref) = some "boom" ∧
    concatSpaced [.str "disk ", .int 3] = "disk 3" ∧
    sprintfVS "disk %v" [.int 3] = "disk 3" ∧
    (Logger.Close state1.logger failingCloser [.str "disk ", .int 3] env0).printed
      = (Logger.Closef sprintfVS state1.logger failingCloser "disk %v" [.int 3]
          env0).printed ∧
    (Logger.Closef sprintfVS state1.logger failingCloser "disk %v" [.int 3] env0).printed
      = [(7, "E: Close disk 3 caused: boom"), (8, "E: Close disk 3 caused: boom")] :=
  have he : failingCloser.result (env0.closeCalls.count failingCloser.ref) = some "boom" :=
    rfl
  have ha : concatSpaced [.str "disk ", .int 3] = "disk 3" := by decide
  have hf : sprintfVS "disk %v" [.int 3] = "disk 3" := by decide
  have h := Close_Closef_same_message sprintfVS state1.logger failingCloser env0 "boom"
    [.str "disk ", .int 3] "disk %v" [.int 3] "disk 3" he ha hf (Or.inl (by decide))
  ⟨he, ha, hf, congrArg Env.printed h.1, by decide⟩

end SzLog
